import Mathlib

/-!
Shallow embedding of `src/filesystem.rs` (tinyfs, a miniature FAT-style
filesystem inside a single disk-image file), together with proofs about the
claims of its specification.

The disk image is modelled as a byte-addressable store `Disk := Nat → Nat`
(each value a byte < 256 where the program writes one; `set_len` zero-fills,
so the freshly created image is the constant-zero function).  Machine
integers are modelled as `Nat` with explicit `% 2 ^ 32` / `% 256` at the
points where the Rust code casts.  Fallible operations return
`Except Err _` mirroring `io::Result`.  The two unbounded `while` loops of
the source (`free_cluster_chain`, the cluster walk in `read_file`) are
modelled with explicit fuel; the fuel bounds are large enough that the
model agrees with the source on every input (for `free_cluster_chain` this
is proved as the termination theorem for claim C9).

The DEFLATE codec lives in the external `flate2` crate, not in this
repository; operations that use it are parameterised by an abstract
compressor `defl : List Nat → List Nat` and decompressor
`infl : List Nat → Option (List Nat)` (`none` = decode error).

Rust `String` values for file names are modelled as their byte lists; for
the valid-UTF-8 strings that Rust's `&str` guarantees, byte-list equality
coincides with string equality, and `String::from_utf8_lossy` on bytes that
came from a valid UTF-8 string is the identity.
-/

/-- `SECTOR_SIZE` from filesystem.rs. -/
def SECTOR_SIZE : Nat := 512

/-- `CLUSTER_SIZE` from filesystem.rs (2 KiB). -/
def CLUSTER_SIZE : Nat := 4 * SECTOR_SIZE

/-- `MAX_CLUSTERS` from filesystem.rs. -/
def MAX_CLUSTERS : Nat := 1024

/-- `FAT_ENTRIES_PER_SECTOR` from filesystem.rs. -/
def FAT_ENTRIES_PER_SECTOR : Nat := SECTOR_SIZE / 4

/-- `FAT_SIZE_SECTORS` from filesystem.rs. -/
def FAT_SIZE_SECTORS : Nat :=
  (MAX_CLUSTERS + FAT_ENTRIES_PER_SECTOR - 1) / FAT_ENTRIES_PER_SECTOR

/-- `BOOT_SECTOR_COUNT` from filesystem.rs. -/
def BOOT_SECTOR_COUNT : Nat := 1

/-- `FAT_START_SECTOR` from filesystem.rs. -/
def FAT_START_SECTOR : Nat := BOOT_SECTOR_COUNT

/-- `ROOT_DIR_START_SECTOR` from filesystem.rs. -/
def ROOT_DIR_START_SECTOR : Nat := FAT_START_SECTOR + FAT_SIZE_SECTORS

/-- `ROOT_DIR_SECTORS` from filesystem.rs. -/
def ROOT_DIR_SECTORS : Nat := 4

/-- `DATA_START_SECTOR` from filesystem.rs. -/
def DATA_START_SECTOR : Nat := ROOT_DIR_START_SECTOR + ROOT_DIR_SECTORS

/-- `DATA_SECTORS` from filesystem.rs. -/
def DATA_SECTORS : Nat := MAX_CLUSTERS * (CLUSTER_SIZE / SECTOR_SIZE)

/-- `FAT_EOC` (end-of-chain sentinel) from filesystem.rs. -/
def FAT_EOC : Nat := 0xFFFFFFFF

/-- `FAT_FREE` from filesystem.rs. -/
def FAT_FREE : Nat := 0

/-- `DIR_ENTRY_SIZE` from filesystem.rs. -/
def DIR_ENTRY_SIZE : Nat := 64

/-- `MAX_FILENAME_LENGTH` from filesystem.rs. -/
def MAX_FILENAME_LENGTH : Nat := 32

/-- Total byte length of the disk image, as set by `format` via `set_len`:
`(DATA_START_SECTOR + DATA_SECTORS) * SECTOR_SIZE`. -/
def totalSize : Nat := (DATA_START_SECTOR + DATA_SECTORS) * SECTOR_SIZE

/-- Error kinds of the filesystem core (the distinct `io::Error` values the
source constructs, plus `ioError` for propagated host-file errors — here
only short reads past the end of the image — and `fuelOut`, the
out-of-fuel marker of the loop models, proved unreachable for
`free_cluster_chain` in the C9 theorem). -/
inductive Err where
  | notFound
  | invalidData
  | invalidInput
  | noSpace
  | dirFull
  | ioError
  | fuelOut
deriving DecidableEq, Repr

/-- The disk image: byte offset to byte value. -/
abbrev Disk := Nat → Nat

/-- Read `n` consecutive bytes starting at byte offset `off`. -/
def readBytes (d : Disk) (off n : Nat) : List Nat :=
  (List.range n).map (fun i => d (off + i))

/-- Overwrite the bytes `off, off+1, …` with the list `bs`. -/
def writeBytes (d : Disk) (off : Nat) (bs : List Nat) : Disk :=
  fun a => if off ≤ a ∧ a < off + bs.length then bs.getD (a - off) 0 else d a

/-- Decode 4 little-endian bytes to a `u32` value (`u32::from_le_bytes`). -/
def fromLE4 (bs : List Nat) : Nat :=
  bs.getD 0 0 + 256 * bs.getD 1 0 + 65536 * bs.getD 2 0 + 16777216 * bs.getD 3 0

/-- Encode a `u32` value as 4 little-endian bytes (`u32::to_le_bytes`). -/
def toLE4 (v : Nat) : List Nat :=
  [v % 256, v / 256 % 256, v / 65536 % 256, v / 16777216 % 256]

/-- `rle_compress_data` inner loop: scanning state is the current run byte
and its count (the count is a `u8` in the source; the `count < 255` guard
keeps it in 1..=255 so `Nat` models it exactly). -/
def rleLoop : List Nat → Nat → Nat → List Nat
  | [], cur, cnt => [cnt, cur]
  | b :: rest, cur, cnt =>
    if b = cur ∧ cnt < 255 then rleLoop rest cur (cnt + 1)
    else cnt :: cur :: rleLoop rest b 1

/-- `rle_compress_data` from filesystem.rs. -/
def rle_compress_data : List Nat → List Nat
  | [] => []
  | b :: rest => rleLoop rest b 1

/-- `rle_decompress_data` from filesystem.rs: consume (count, byte) pairs;
a trailing lone byte is ignored (the source breaks when `i + 1 >= len`). -/
def rle_decompress_data : List Nat → List Nat
  | c :: b :: rest => List.replicate c b ++ rle_decompress_data rest
  | _ => []

/-- `FileEntry` from filesystem.rs.  `name` is the byte list of the Rust
`String` (see the header comment); numeric fields are the `u32`/`u8`
values. -/
structure FileEntry where
  name : List Nat
  size : Nat
  compressed_size : Nat
  first_cluster : Nat
  is_deleted : Bool
  is_compressed : Bool
  compression_method : Nat
deriving DecidableEq, Repr

/-- `FileEntry::new` from filesystem.rs: `is_compressed` is derived as
`compression_method > 0`. -/
def FileEntry.new (name : List Nat) (size compressed_size first_cluster : Nat)
    (compression_method : Nat) : FileEntry :=
  { name := name
    size := size
    compressed_size := compressed_size
    first_cluster := first_cluster
    is_deleted := false
    is_compressed := decide (0 < compression_method)
    compression_method := compression_method }

/-- `FileEntry::to_bytes` from filesystem.rs: a 64-byte slot image.  The
name is truncated to `MAX_FILENAME_LENGTH` bytes and zero-padded; offsets
32/36/40 hold `size`/`compressed_size`/`first_cluster` in little-endian;
bytes 44/45/46 are the deleted flag, compressed flag and method. -/
def FileEntry.to_bytes (e : FileEntry) : List Nat :=
  (e.name.take MAX_FILENAME_LENGTH ++
    List.replicate (MAX_FILENAME_LENGTH - min e.name.length MAX_FILENAME_LENGTH) 0) ++
  toLE4 (e.size % 2 ^ 32) ++ toLE4 (e.compressed_size % 2 ^ 32) ++
  toLE4 (e.first_cluster % 2 ^ 32) ++
  [if e.is_deleted then 1 else 0, if e.is_compressed then 1 else 0,
    e.compression_method % 256] ++
  List.replicate 17 0

/-- `(bs.drop off).take n`: the slice `bs[off .. off+n]`. -/
def extract (bs : List Nat) (off n : Nat) : List Nat := (bs.drop off).take n

/-- `FileEntry::from_bytes` from filesystem.rs.  The name is the prefix of
the 32-byte field up to the first zero byte (`from_utf8_lossy` is modelled
as the identity on the byte list, see the header comment). -/
def FileEntry.from_bytes (bs : List Nat) : Option FileEntry :=
  if bs.length < DIR_ENTRY_SIZE then none
  else some
    { name := (bs.take MAX_FILENAME_LENGTH).takeWhile (fun b => b ≠ 0)
      size := fromLE4 (extract bs 32 4)
      compressed_size := fromLE4 (extract bs 36 4)
      first_cluster := fromLE4 (extract bs 40 4)
      is_deleted := bs.getD 44 0 != 0
      is_compressed := bs.getD 45 0 != 0
      compression_method := bs.getD 46 0 }

/-- `FileSystem::get_next_cluster`: read the 4-byte FAT slot of `cluster`.
`read_exact` fails (an `io` error) when the 4 bytes reach past the end of
the image. -/
def get_next_cluster (d : Disk) (cluster : Nat) : Except Err Nat :=
  if FAT_START_SECTOR * SECTOR_SIZE + cluster * 4 + 4 ≤ totalSize then
    .ok (fromLE4 (readBytes d (FAT_START_SECTOR * SECTOR_SIZE + cluster * 4) 4))
  else .error .ioError

/-- `FileSystem::set_next_cluster`: write the 4-byte FAT slot of `cluster`.
(A write never fails: seeking past the end of the host file and writing
extends it; in every reachable call the offset is within the image.) -/
def set_next_cluster (d : Disk) (cluster next : Nat) : Disk :=
  writeBytes d (FAT_START_SECTOR * SECTOR_SIZE + cluster * 4) (toLE4 (next % 2 ^ 32))

/-- `FileSystem::read_cluster`: cluster numbers below 2 are rejected;
reading past the end of the image is an `io` error. -/
def read_cluster (d : Disk) (cluster : Nat) : Except Err (List Nat) :=
  if cluster < 2 then .error .invalidInput
  else if DATA_START_SECTOR * SECTOR_SIZE + (cluster - 2) * CLUSTER_SIZE + CLUSTER_SIZE ≤ totalSize then
    .ok (readBytes d (DATA_START_SECTOR * SECTOR_SIZE + (cluster - 2) * CLUSTER_SIZE) CLUSTER_SIZE)
  else .error .ioError

/-- `FileSystem::write_cluster`: rejects cluster numbers below 2 and data
longer than a cluster; writes a full cluster, zero-padding the tail. -/
def write_cluster (d : Disk) (cluster : Nat) (data : List Nat) : Except Err Disk :=
  if cluster < 2 then .error .invalidInput
  else if CLUSTER_SIZE < data.length then .error .invalidInput
  else .ok (writeBytes d (DATA_START_SECTOR * SECTOR_SIZE + (cluster - 2) * CLUSTER_SIZE)
    (data ++ List.replicate (CLUSTER_SIZE - data.length) 0))

/-- The contiguous root-directory region as read by
`read_directory_entries` / `write_directory_entry`. -/
def readRootDir (d : Disk) : List Nat :=
  readBytes d (ROOT_DIR_START_SECTOR * SECTOR_SIZE) (ROOT_DIR_SECTORS * SECTOR_SIZE)

/-- The slot-scanning loop of `read_directory_entries`: a slot whose first
byte is nonzero and that decodes to a non-deleted entry is collected. -/
def entriesFromBuffer (buf : List Nat) : List FileEntry :=
  (List.range (ROOT_DIR_SECTORS * SECTOR_SIZE / DIR_ENTRY_SIZE)).foldl
    (fun acc i =>
      let ed := extract buf (i * DIR_ENTRY_SIZE) DIR_ENTRY_SIZE
      if ed.getD 0 0 ≠ 0 then
        match FileEntry.from_bytes ed with
        | some e => if e.is_deleted then acc else acc ++ [e]
        | none => acc
      else acc) []

/-- `FileSystem::read_directory_entries` (the 2048-byte region read cannot
reach past the image, so the host read never fails). -/
def read_directory_entries (d : Disk) : Except Err (List FileEntry) :=
  .ok (entriesFromBuffer (readRootDir d))

/-- The slot-selection scan of `write_directory_entry`: the first slot
whose first byte is 0, or whose decode has the same name as `e` or is
deleted. -/
def chooseSlot (buf : List Nat) (e : FileEntry) : Option Nat :=
  (List.range (ROOT_DIR_SECTORS * SECTOR_SIZE / DIR_ENTRY_SIZE)).find?
    (fun i =>
      buf.getD (i * DIR_ENTRY_SIZE) 0 == 0 ||
        match FileEntry.from_bytes (extract buf (i * DIR_ENTRY_SIZE) DIR_ENTRY_SIZE) with
        | some existing => existing.name == e.name || existing.is_deleted
        | none => false)

/-- `FileSystem::write_directory_entry`: splice the 64-byte encoding of `e`
into the chosen slot of the in-memory copy of the root directory and write
the whole region back; fail with the directory-full error when no slot
qualifies. -/
def write_directory_entry (d : Disk) (e : FileEntry) : Except Err Disk :=
  let buf := readRootDir d
  match chooseSlot buf e with
  | none => .error .dirFull
  | some i =>
    .ok (writeBytes d (ROOT_DIR_START_SECTOR * SECTOR_SIZE)
      (buf.take (i * DIR_ENTRY_SIZE) ++ e.to_bytes ++ buf.drop (i * DIR_ENTRY_SIZE + DIR_ENTRY_SIZE)))

/-- `FileSystem::find_file`: first live entry with the given name. -/
def find_file (d : Disk) (filename : List Nat) : Except Err (Option FileEntry) :=
  .ok ((entriesFromBuffer (readRootDir d)).find?
    (fun e => e.name == filename && !e.is_deleted))

/-- The scan of `FileSystem::allocate_cluster` over a list of candidate
cluster indices. -/
def allocLoop (d : Disk) : List Nat → Except Err (Nat × Disk)
  | [] => .error .noSpace
  | c :: rest =>
    match get_next_cluster d c with
    | .error e => .error e
    | .ok v => if v = FAT_FREE then .ok (c, set_next_cluster d c FAT_EOC) else allocLoop d rest

/-- `FileSystem::allocate_cluster`: linearly scan clusters
`2 .. MAX_CLUSTERS`, return the first whose FAT slot is free after marking
it end-of-chain; the no-space error when none is free. -/
def allocate_cluster (d : Disk) : Except Err (Nat × Disk) :=
  allocLoop d (List.range' 2 (MAX_CLUSTERS - 2))

/-- Fuel bound for the `free_cluster_chain` walk: one unit per FAT slot
that fits inside the image (the walk can only revisit offsets within the
image — reads beyond it fail), plus two. -/
def FREE_FUEL : Nat := (totalSize - FAT_START_SECTOR * SECTOR_SIZE) / 4 + 2

/-- The `while` loop of `FileSystem::free_cluster_chain`, with fuel: read
the next pointer, zero the slot, follow the pointer, until the current
value is `FAT_EOC` or below 2.  `none` = fuel exhausted (proved impossible
at `FREE_FUEL` in the C9 theorem). -/
def freeChainLoop : Nat → Disk → Nat → Option (Except Err Disk)
  | 0, _, _ => none
  | fuel + 1, d, current =>
    if current ≠ FAT_EOC ∧ 2 ≤ current then
      match get_next_cluster d current with
      | .error e => some (.error e)
      | .ok next => freeChainLoop fuel (set_next_cluster d current FAT_FREE) next
    else some (.ok d)

/-- `FileSystem::free_cluster_chain` from filesystem.rs. -/
def free_cluster_chain (d : Disk) (start_cluster : Nat) : Except Err Disk :=
  if start_cluster < 2 then .ok d
  else
    match freeChainLoop FREE_FUEL d start_cluster with
    | some r => r
    | none => .error .fuelOut

/-- `FileSystem::delete_file`: look up the live entry, free its cluster
chain, then rewrite the entry with the deleted flag set via
`write_directory_entry`. -/
def delete_file (d : Disk) (filename : List Nat) : Except Err Disk :=
  match find_file d filename with
  | .error e => .error e
  | .ok none => .error .notFound
  | .ok (some fe) =>
    match free_cluster_chain d fe.first_cluster with
    | .error e => .error e
    | .ok d => write_directory_entry d { fe with is_deleted := true }

/-- The per-chunk loop of `write_file` over chunk indices
`0 .. clusters_needed`: write each chunk of the compressed payload to the
current cluster; for each non-final chunk allocate the next cluster and
link the current one to it. -/
def writeChunksLoop (payload : List Nat) (csz k : Nat) :
    List Nat → Nat → Disk → Except Err (Nat × Disk)
  | [], current, d => .ok (current, d)
  | idx :: rest, current, d =>
    if idx * CLUSTER_SIZE < csz then
      let start := idx * CLUSTER_SIZE
      let stop := min (start + CLUSTER_SIZE) csz
      let chunk :=
        if start < payload.length then
          if stop ≤ payload.length then (payload.drop start).take (stop - start)
          else payload.drop start
        else []
      match write_cluster d current chunk with
      | .error e => .error e
      | .ok d =>
        if idx < k - 1 then
          match allocate_cluster d with
          | .error e => .error e
          | .ok (next, d) => writeChunksLoop payload csz k rest next (set_next_cluster d current next)
        else writeChunksLoop payload csz k rest current d
    else writeChunksLoop payload csz k rest current d

/-- `FileSystem::write_file` from filesystem.rs, parameterised by the
abstract DEFLATE compressor `defl` (method 2).  Methods: 0 = none,
1 = RLE, 2 = DEFLATE (the default when `compression_method` is `None`),
anything else is invalid-input.  An existing live file of the same name is
deleted first (a failed lookup is swallowed, a failed delete propagates).
The entry records the original and compressed sizes cast to `u32`. -/
def write_file (defl : List Nat → List Nat) (d : Disk) (filename data : List Nat)
    (compression_method : Option Nat) : Except Err Disk :=
  let m := compression_method.getD 2
  match (match m with
    | 0 => Except.ok (data, data.length, data.length)
    | 1 => Except.ok (rle_compress_data data, data.length, (rle_compress_data data).length)
    | 2 => Except.ok (defl data, data.length, (defl data).length)
    | _ => Except.error Err.invalidInput :
      Except Err (List Nat × Nat × Nat)) with
  | .error e => .error e
  | .ok (payload, original_size, compressed_size) =>
    match (match find_file d filename with
      | .ok (some _) => delete_file d filename
      | _ => .ok d) with
    | .error e => .error e
    | .ok d =>
      let clusters_needed := max ((compressed_size + CLUSTER_SIZE - 1) / CLUSTER_SIZE) 1
      match allocate_cluster d with
      | .error e => .error e
      | .ok (first_cluster, d) =>
        match writeChunksLoop payload compressed_size clusters_needed
            (List.range clusters_needed) first_cluster d with
        | .error e => .error e
        | .ok (current, d) =>
          write_directory_entry (set_next_cluster d current FAT_EOC)
            (FileEntry.new filename (original_size % 2 ^ 32) (compressed_size % 2 ^ 32)
              first_cluster m)

/-- The cluster-chain walk of `read_file`, with fuel: gather cluster
contents, truncating to `compressed_size` bytes in total; stop when that
many bytes are gathered, or when the current cluster is `FAT_EOC` or
below 2. -/
def readChainLoop (d : Disk) (csz : Nat) : Nat → Nat → List Nat → Except Err (List Nat)
  | 0, _, _ => .error .fuelOut
  | fuel + 1, current, acc =>
    if current ≠ FAT_EOC ∧ 2 ≤ current then
      match read_cluster d current with
      | .error e => .error e
      | .ok cdata =>
        let acc := acc ++ cdata.take (min (csz - acc.length) cdata.length)
        if csz ≤ acc.length then .ok acc
        else
          match get_next_cluster d current with
          | .error e => .error e
          | .ok next => readChainLoop d csz fuel next acc
    else .ok acc

/-- Gather the stored bytes of `fe` by walking its chain.  The fuel
`compressed_size / CLUSTER_SIZE + 2` covers every terminating run of the
source loop: each iteration that continues gathers a full cluster. -/
def gatherFile (d : Disk) (fe : FileEntry) : Except Err (List Nat) :=
  readChainLoop d fe.compressed_size (fe.compressed_size / CLUSTER_SIZE + 2) fe.first_cluster []

/-- `FileSystem::read_file` from filesystem.rs, parameterised by the
abstract DEFLATE decompressor `infl`.  After gathering the stored bytes the
result branches on the entry's `is_compressed` flag; only when it is set is
`compression_method` consulted (1 = RLE, 2 = DEFLATE, each followed by the
decompressed-length check against `size`; 0 returns the gathered bytes;
other values are an error). -/
def read_file (infl : List Nat → Option (List Nat)) (d : Disk) (filename : List Nat) :
    Except Err (List Nat) :=
  match find_file d filename with
  | .error e => .error e
  | .ok none => .error .notFound
  | .ok (some fe) =>
    match gatherFile d fe with
    | .error e => .error e
    | .ok compressed_data =>
      if fe.is_compressed then
        match fe.compression_method with
        | 0 => .ok compressed_data
        | 1 =>
          let dec := rle_decompress_data compressed_data
          if dec.length = fe.size then .ok dec else .error .invalidData
        | 2 =>
          match infl compressed_data with
          | none => .error .invalidData
          | some dec => if dec.length = fe.size then .ok dec else .error .invalidData
        | _ => .error .invalidData
      else .ok compressed_data

/-- `FileSystem::get_compression_stats`.  The ratio, an `f32` in the
source, is modelled as a rational; the claims only involve the values
100.0 (equal sizes: `x / x * 100.0` is exact in `f32`) and 0.0, on which
the models agree.  The labels are the literal strings of the source. -/
def get_compression_stats (d : Disk) (filename : List Nat) :
    Except Err (Nat × Nat × ℚ × String) :=
  match find_file d filename with
  | .error e => .error e
  | .ok none => .error .notFound
  | .ok (some fe) =>
    .ok (fe.size, fe.compressed_size,
      if 0 < fe.size then ((fe.compressed_size : ℚ) / (fe.size : ℚ)) * 100 else 0,
      match fe.compression_method with
      | 0 => "无压缩"
      | 1 => "RLE压缩"
      | 2 => "DEFLATE压缩"
      | _ => "未知压缩方法")

/-- `FileSystem::list_files` = `read_directory_entries`. -/
def list_files (d : Disk) : Except Err (List FileEntry) :=
  read_directory_entries d

/-- The boot sector written by `FileSystem::format` (jump bytes, the
"MINIFAT " identifier, geometry fields, `55 AA` signature). -/
def bootSector : List Nat :=
  (List.range SECTOR_SIZE).map (fun i =>
    if i = 0 then 0xEB else if i = 1 then 0x3C else if i = 2 then 0x90
    else if 3 ≤ i ∧ i < 11 then [77, 73, 78, 73, 70, 65, 84, 32].getD (i - 3) 0
    else if i = 11 then CLUSTER_SIZE / SECTOR_SIZE
    else if i = 12 then 1 else if i = 13 then 0
    else if i = 14 then 1
    else if i = 15 then ROOT_DIR_SECTORS * SECTOR_SIZE / DIR_ENTRY_SIZE else if i = 16 then 0
    else if 17 ≤ i ∧ i < 21 then (toLE4 (DATA_START_SECTOR + DATA_SECTORS)).getD (i - 17) 0
    else if i = 21 then FAT_SIZE_SECTORS else if i = 22 then 0
    else if i = SECTOR_SIZE - 2 then 0x55 else if i = SECTOR_SIZE - 1 then 0xAA
    else 0)

/-- The first FAT sector written by `format`: slots 0 and 1 hold `FAT_EOC`,
the rest of the sector is zero. -/
def fatSector0 : List Nat :=
  toLE4 FAT_EOC ++ toLE4 FAT_EOC ++ List.replicate (SECTOR_SIZE - 8) 0

/-- `FileSystem::format` applied to the image bytes: `set_len` produces an
all-zero file, then the boot sector, the first FAT sector, the remaining
(zero) FAT sectors and the (zero) root-directory sectors are written. -/
def format : Disk :=
  let d : Disk := fun _ => 0
  let d := writeBytes d 0 bootSector
  let d := writeBytes d (FAT_START_SECTOR * SECTOR_SIZE) fatSector0
  let d := (List.range (FAT_SIZE_SECTORS - 1)).foldl
    (fun d i => writeBytes d ((FAT_START_SECTOR + 1 + i) * SECTOR_SIZE)
      (List.replicate SECTOR_SIZE 0)) d
  (List.range ROOT_DIR_SECTORS).foldl
    (fun d i => writeBytes d ((ROOT_DIR_START_SECTOR + i) * SECTOR_SIZE)
      (List.replicate SECTOR_SIZE 0)) d

/-- FAT value of cluster slot `c` (the observation used by the proofs). -/
def fatVal (d : Disk) (c : Nat) : Nat :=
  fromLE4 (readBytes d (FAT_START_SECTOR * SECTOR_SIZE + c * 4) 4)

/-- Byte `i` of the root-directory region. -/
def dirByte (d : Disk) (i : Nat) : Nat := d (ROOT_DIR_START_SECTOR * SECTOR_SIZE + i)

/-- The 64 bytes of directory slot `i`. -/
def slotBytes (d : Disk) (i : Nat) : List Nat :=
  readBytes d (ROOT_DIR_START_SECTOR * SECTOR_SIZE + i * DIR_ENTRY_SIZE) DIR_ENTRY_SIZE

/-- The 2048 bytes of data cluster `c` (`c ≥ 2`). -/
def clusterBytes (d : Disk) (c : Nat) : List Nat :=
  readBytes d (DATA_START_SECTOR * SECTOR_SIZE + (c - 2) * CLUSTER_SIZE) CLUSTER_SIZE

/-- An identity stand-in for the abstract DEFLATE compressor, used to
instantiate witnesses. -/
def deflId : List Nat → List Nat := fun bs => bs

/-- An identity stand-in for the abstract DEFLATE decompressor. -/
def inflId : List Nat → Option (List Nat) := fun bs => some bs

/-- The compressed payload `write_file` computes for method `m`
(methods 0/1/2; other methods never reach the payload). -/
def payloadFor (defl : List Nat → List Nat) (m : Nat) (data : List Nat) : List Nat :=
  match m with
  | 0 => data
  | 1 => rle_compress_data data
  | 2 => defl data
  | _ => []

/-- `clusters_needed` of `write_file`: `max ⌈csz / CLUSTER_SIZE⌉ 1`. -/
def clustersFor (csz : Nat) : Nat := max ((csz + CLUSTER_SIZE - 1) / CLUSTER_SIZE) 1

/-- On-disk content of the cluster holding chunk `j` of a payload: the
chunk, zero-padded to a full cluster. -/
def clusterOfChunk (payload : List Nat) (j : Nat) : List Nat :=
  (payload.drop (CLUSTER_SIZE * j)).take CLUSTER_SIZE ++
    List.replicate (CLUSTER_SIZE - ((payload.drop (CLUSTER_SIZE * j)).take CLUSTER_SIZE).length) 0

/-- The 32 directory slots of a disk. -/
def slotsList (d : Disk) : List (List Nat) := (List.range 32).map (slotBytes d)

/-- Slot-list view of the `read_directory_entries` scan. -/
def entriesOfSlots : List (List Nat) → List FileEntry
  | [] => []
  | s :: rest =>
    (if s.getD 0 0 ≠ 0 then
      match FileEntry.from_bytes s with
      | some e => if e.is_deleted then [] else [e]
      | none => []
    else []) ++ entriesOfSlots rest

/-- Slot-list view of the `write_directory_entry` slot predicate. -/
def slotPred (sb : List Nat) (e : FileEntry) : Bool :=
  sb.getD 0 0 == 0 ||
    match FileEntry.from_bytes sb with
    | some existing => existing.name == e.name || existing.is_deleted
    | none => false

/-- Pre-state shape for the `write_file` characterisation: the FAT has an
allocated (nonzero) prefix `2 .. a` and is free from `a` up to
`MAX_CLUSTERS`; directory slot 0 starts with a zero byte (never-used in
the eyes of every scan) and all other slots are fully zero. -/
structure WState (d : Disk) (a : Nat) : Prop where
  lo : ∀ j, 2 ≤ j → j < a → fatVal d j ≠ 0
  hi : ∀ j, a ≤ j → j < 1024 → fatVal d j = 0
  slot0 : dirByte d 0 = 0
  rest : ∀ i, 1 ≤ i → i < 32 → slotBytes d i = List.replicate 64 0
  lb : 2 ≤ a
  ub : a ≤ 1024

/-- Post-state shape of a successful `write_file` from a `WState`: slot 0
holds the new entry, the chain `a → a+1 → … → a+k-1 → EOC` is laid out in
the FAT, the chain's clusters hold the payload chunks, and everything else
is unchanged. -/
structure WriteOut (dOld W : Disk) (a k : Nat) (payload name : List Nat) (osz m : Nat) : Prop where
  slot0 : slotBytes W 0 =
    (FileEntry.new name (osz % 2 ^ 32) (payload.length % 2 ^ 32) a m).to_bytes
  slot_rest : ∀ i, 1 ≤ i → i < 32 → slotBytes W i = slotBytes dOld i
  fat_lo : ∀ j, j < a → fatVal W j = fatVal dOld j
  fat_chain : ∀ j, j + 1 < k → fatVal W (a + j) = a + j + 1
  fat_last : fatVal W (a + (k - 1)) = FAT_EOC
  fat_hi : ∀ j, a + k ≤ j → j < 1024 → fatVal W j = fatVal dOld j
  clus : payload ≠ [] → ∀ j, j < k → clusterBytes W (a + j) = clusterOfChunk payload j
  clus_nil : payload = [] → clusterBytes W a = clusterBytes dOld a
  clus_lo : ∀ c, 2 ≤ c → c < a → clusterBytes W c = clusterBytes dOld c
  clus_hi : ∀ c, a + k ≤ c → clusterBytes W c = clusterBytes dOld c

/-- A hand-built live entry for claim C4: stored size 3000 (needs two
clusters) but its chain has a single cluster ending in EOC; method 0. -/
def eC4 : FileEntry :=
  { name := [97], size := 9999, compressed_size := 3000, first_cluster := 2,
    is_deleted := false, is_compressed := false, compression_method := 0 }

/-- Disk for claim C4: freshly formatted, FAT slot 2 set to EOC, slot 0 of
the directory holding `eC4`. -/
def dC4 : Disk :=
  writeBytes (set_next_cluster format 2 FAT_EOC) (ROOT_DIR_START_SECTOR * SECTOR_SIZE)
    eC4.to_bytes

/-- A hand-built entry for claim C5: method 1 (RLE), compressed flag set,
stored size 2, original size 5. -/
def eC5 : FileEntry :=
  { name := [97], size := 5, compressed_size := 2, first_cluster := 2,
    is_deleted := false, is_compressed := true, compression_method := 1 }

/-- Disk for claim C5 with the compressed flag set: cluster 2 holds the RLE
pair (5, 120) and directory slot 0 holds `eC5`. -/
def dC5a : Disk :=
  writeBytes
    (writeBytes (set_next_cluster format 2 FAT_EOC) (DATA_START_SECTOR * SECTOR_SIZE)
      ([5, 120] ++ List.replicate 2046 0))
    (ROOT_DIR_START_SECTOR * SECTOR_SIZE) eC5.to_bytes

/-- Disk for claim C5 with the compressed-flag byte (offset 45 of slot 0)
overwritten with 0 — the two disks differ only in that byte. -/
def dC5b : Disk :=
  writeBytes dC5a (ROOT_DIR_START_SECTOR * SECTOR_SIZE + 45) [0]

/-- The entry that slot 0 of `dC5b` holds: `eC5` with the compressed flag
cleared. -/
def eC5b : FileEntry := { eC5 with is_compressed := false }

/-- Post-state shape of a successful `write_file` whose directory-entry
write lands in slot `i` (the generalisation of `WriteOut` to volumes whose
directory already holds entries). -/
structure WriteOutAt (dOld W : Disk) (a k : Nat) (payload name : List Nat) (osz m i : Nat) :
    Prop where
  slot_new : slotBytes W i =
    (FileEntry.new name (osz % 2 ^ 32) (payload.length % 2 ^ 32) a m).to_bytes
  slot_rest : ∀ t, t < 32 → t ≠ i → slotBytes W t = slotBytes dOld t
  fat_lo : ∀ j, j < a → fatVal W j = fatVal dOld j
  fat_chain : ∀ j, j + 1 < k → fatVal W (a + j) = a + j + 1
  fat_last : fatVal W (a + (k - 1)) = FAT_EOC
  fat_hi : ∀ j, a + k ≤ j → j < 1024 → fatVal W j = fatVal dOld j
  clus : payload ≠ [] → ∀ j, j < k → clusterBytes W (a + j) = clusterOfChunk payload j
  clus_nil : payload = [] → clusterBytes W a = clusterBytes dOld a
  clus_lo : ∀ c, 2 ≤ c → c < a → clusterBytes W c = clusterBytes dOld c
  clus_hi : ∀ c, a + k ≤ c → clusterBytes W c = clusterBytes dOld c

/-- The entry written for file `"a"` = `[97]` (payload `[1]`, cluster 2) in
the delete-misplacement traces. -/
def e97 : FileEntry := FileEntry.new [97] (1 % 2 ^ 32) (1 % 2 ^ 32) 2 0

/-- The entry written for file `"b"` = `[98]` (payload `[2]`, cluster 3). -/
def e98 : FileEntry := FileEntry.new [98] (1 % 2 ^ 32) (1 % 2 ^ 32) 3 0

/-- The tombstoned form of `e97` that `delete_file` writes back. -/
def t97 : FileEntry := { e97 with is_deleted := true }

/-- The tombstoned form of `e98`. -/
def t98 : FileEntry := { e98 with is_deleted := true }

/-- The second live entry for `"b"` (payload `[3]`, reallocated cluster 2)
produced by rewriting `"b"` after the misplaced tombstone. -/
def e98b : FileEntry := FileEntry.new [98] (1 % 2 ^ 32) (1 % 2 ^ 32) 2 0

/-! ### Numeric values of the geometry constants -/

theorem CLUSTER_SIZE_eq : CLUSTER_SIZE = 2048 := rfl

theorem DIR_ENTRY_SIZE_eq : DIR_ENTRY_SIZE = 64 := rfl

theorem MAX_CLUSTERS_eq : MAX_CLUSTERS = 1024 := rfl

theorem MAX_FILENAME_LENGTH_eq : MAX_FILENAME_LENGTH = 32 := rfl

theorem totalSize_eq : totalSize = 2103808 := rfl

theorem rootOff_eq : ROOT_DIR_START_SECTOR * SECTOR_SIZE = 4608 := rfl

theorem dataOff_eq : DATA_START_SECTOR * SECTOR_SIZE = 6656 := rfl

theorem fatOff_eq : FAT_START_SECTOR * SECTOR_SIZE = 512 := rfl

theorem FREE_FUEL_eq : FREE_FUEL = 525826 := rfl

theorem FAT_EOC_eq : FAT_EOC = 4294967295 := rfl

theorem FAT_FREE_eq : FAT_FREE = 0 := rfl

theorem rootDirSize_eq : ROOT_DIR_SECTORS * SECTOR_SIZE = 2048 := rfl

theorem entryCount_eq : ROOT_DIR_SECTORS * SECTOR_SIZE / DIR_ENTRY_SIZE = 32 := rfl

/-! ### Byte-level read/write algebra -/

theorem readBytes_length (d : Disk) (off n : Nat) : (readBytes d off n).length = n := by
  simp [readBytes]

theorem readBytes_getElem? (d : Disk) (off n i : Nat) (h : i < n) :
    (readBytes d off n)[i]? = some (d (off + i)) := by
  simp [readBytes, List.getElem?_range, h]

theorem readBytes_getD (d : Disk) (off n i : Nat) (h : i < n) :
    (readBytes d off n).getD i 0 = d (off + i) := by
  simp [List.getD_eq_getElem?_getD, readBytes_getElem? d off n i h]

theorem readBytes_ext {d1 d2 : Disk} {off1 off2 n : Nat}
    (h : ∀ i, i < n → d1 (off1 + i) = d2 (off2 + i)) :
    readBytes d1 off1 n = readBytes d2 off2 n := by
  apply List.ext_getElem?
  intro i
  by_cases hi : i < n
  · rw [readBytes_getElem? _ _ _ _ hi, readBytes_getElem? _ _ _ _ hi, h i hi]
  · have h1 : (readBytes d1 off1 n).length ≤ i := by rw [readBytes_length]; omega
    have h2 : (readBytes d2 off2 n).length ≤ i := by rw [readBytes_length]; omega
    rw [List.getElem?_eq_none h1, List.getElem?_eq_none h2]

theorem writeBytes_in {off a : Nat} (d : Disk) (bs : List Nat)
    (h1 : off ≤ a) (h2 : a < off + bs.length) :
    writeBytes d off bs a = bs.getD (a - off) 0 := by
  simp [writeBytes, h1, h2]

theorem writeBytes_out {off a : Nat} (d : Disk) (bs : List Nat)
    (h : a < off ∨ off + bs.length ≤ a) :
    writeBytes d off bs a = d a := by
  unfold writeBytes
  have : ¬ (off ≤ a ∧ a < off + bs.length) := by omega
  simp [this]

theorem readBytes_writeBytes_disj {off off2 n : Nat} (d : Disk) (bs : List Nat)
    (h : off2 + n ≤ off ∨ off + bs.length ≤ off2) :
    readBytes (writeBytes d off bs) off2 n = readBytes d off2 n := by
  apply readBytes_ext
  intro i hi
  exact writeBytes_out d bs (by omega)

theorem extract_getElem? (bs : List Nat) (a n i : Nat) :
    (extract bs a n)[i]? = if i < n then bs[a + i]? else none := by
  simp [extract, List.getElem?_take, List.getElem?_drop]

theorem extract_length (bs : List Nat) (a n : Nat) (h : a + n ≤ bs.length) :
    (extract bs a n).length = n := by
  simp [extract]
  omega

theorem readBytes_writeBytes_sub {off a n : Nat} (d : Disk) (bs : List Nat)
    (h : a + n ≤ bs.length) :
    readBytes (writeBytes d off bs) (off + a) n = extract bs a n := by
  apply List.ext_getElem?
  intro i
  rw [extract_getElem?]
  by_cases hi : i < n
  · rw [readBytes_getElem? _ _ _ _ hi, if_pos hi]
    rw [show off + a + i = off + (a + i) by omega]
    rw [writeBytes_in d bs (by omega) (by omega)]
    have hai : a + i < bs.length := by omega
    have hoa : off + (a + i) - off = a + i := by omega
    rw [hoa, List.getD_eq_getElem?_getD, List.getElem?_eq_getElem hai]
    simp
  · rw [if_neg hi]
    have h1 : (readBytes (writeBytes d off bs) (off + a) n).length ≤ i := by
      rw [readBytes_length]; omega
    exact List.getElem?_eq_none h1

theorem readBytes_writeBytes (d : Disk) (off : Nat) (bs : List Nat) :
    readBytes (writeBytes d off bs) off bs.length = bs := by
  have h := @readBytes_writeBytes_sub off 0 bs.length d bs (by omega)
  simp [extract] at h
  simpa using h

theorem toLE4_length (v : Nat) : (toLE4 v).length = 4 := rfl

theorem fromLE4_toLE4 (v : Nat) : fromLE4 (toLE4 v) = v % 2 ^ 32 := by
  simp [fromLE4, toLE4, List.getD]
  omega

/-! ### FAT primitive characterisation -/

theorem get_next_cluster_eq (d : Disk) (c : Nat) (h : c < 525824) :
    get_next_cluster d c = .ok (fatVal d c) := by
  unfold get_next_cluster fatVal
  rw [if_pos (by simp only [fatOff_eq, totalSize_eq]; omega)]

theorem get_next_cluster_err (d : Disk) (c : Nat) (h : 525824 ≤ c) :
    get_next_cluster d c = .error .ioError := by
  unfold get_next_cluster
  rw [if_neg (by simp only [fatOff_eq, totalSize_eq]; omega)]

theorem fatVal_set_next_self (d : Disk) (c v : Nat) :
    fatVal (set_next_cluster d c v) c = v % 2 ^ 32 := by
  unfold fatVal set_next_cluster
  have h := readBytes_writeBytes d (FAT_START_SECTOR * SECTOR_SIZE + c * 4) (toLE4 (v % 2 ^ 32))
  rw [toLE4_length] at h
  rw [h, fromLE4_toLE4]
  omega

theorem fatVal_set_next_ne (d : Disk) (c v c' : Nat) (h : c' ≠ c) :
    fatVal (set_next_cluster d c v) c' = fatVal d c' := by
  unfold fatVal set_next_cluster
  rw [readBytes_writeBytes_disj]
  simp only [toLE4_length, fatOff_eq]
  omega

theorem slotBytes_set_next (d : Disk) (c v i : Nat) (hc : c < 1024) :
    slotBytes (set_next_cluster d c v) i = slotBytes d i := by
  unfold slotBytes set_next_cluster
  rw [readBytes_writeBytes_disj]
  simp only [toLE4_length, fatOff_eq, rootOff_eq]
  omega

theorem dirByte_set_next (d : Disk) (c v i : Nat) (hc : c < 1024) :
    dirByte (set_next_cluster d c v) i = dirByte d i := by
  unfold dirByte set_next_cluster
  apply writeBytes_out
  simp only [toLE4_length, fatOff_eq, rootOff_eq]
  omega

theorem clusterBytes_set_next (d : Disk) (c v c' : Nat) (hc : c < 1024) :
    clusterBytes (set_next_cluster d c v) c' = clusterBytes d c' := by
  unfold clusterBytes set_next_cluster
  rw [readBytes_writeBytes_disj]
  simp only [toLE4_length, fatOff_eq, dataOff_eq]
  omega

/-! ### Cluster read/write characterisation -/

theorem read_cluster_eq (d : Disk) (c : Nat) (h2 : 2 ≤ c) (hub : c ≤ 1025) :
    read_cluster d c = .ok (clusterBytes d c) := by
  unfold read_cluster clusterBytes
  rw [if_neg (by omega), if_pos]
  simp only [dataOff_eq, totalSize_eq, CLUSTER_SIZE_eq]
  omega

theorem clusterBytes_length (d : Disk) (c : Nat) : (clusterBytes d c).length = CLUSTER_SIZE := by
  unfold clusterBytes
  rw [readBytes_length]

theorem padded_length (data : List Nat) (hl : data.length ≤ CLUSTER_SIZE) :
    (data ++ List.replicate (CLUSTER_SIZE - data.length) 0).length = CLUSTER_SIZE := by
  simp
  omega

theorem write_cluster_ok (d : Disk) (c : Nat) (data : List Nat)
    (h2 : 2 ≤ c) (hl : data.length ≤ CLUSTER_SIZE) :
    write_cluster d c data =
      .ok (writeBytes d (DATA_START_SECTOR * SECTOR_SIZE + (c - 2) * CLUSTER_SIZE)
        (data ++ List.replicate (CLUSTER_SIZE - data.length) 0)) := by
  unfold write_cluster
  rw [if_neg (by omega), if_neg (by omega)]

theorem clusterBytes_write_data_self (d : Disk) (c : Nat) (bs : List Nat)
    (hbs : bs.length = CLUSTER_SIZE) :
    clusterBytes (writeBytes d (DATA_START_SECTOR * SECTOR_SIZE + (c - 2) * CLUSTER_SIZE) bs) c
      = bs := by
  unfold clusterBytes
  have h := readBytes_writeBytes d (DATA_START_SECTOR * SECTOR_SIZE + (c - 2) * CLUSTER_SIZE) bs
  rw [hbs] at h
  exact h

theorem clusterBytes_write_data_ne (d : Disk) (c c' : Nat) (bs : List Nat)
    (hbs : bs.length = CLUSTER_SIZE) (h2 : 2 ≤ c) (h2' : 2 ≤ c') (hne : c' ≠ c) :
    clusterBytes (writeBytes d (DATA_START_SECTOR * SECTOR_SIZE + (c - 2) * CLUSTER_SIZE) bs) c'
      = clusterBytes d c' := by
  unfold clusterBytes
  rw [readBytes_writeBytes_disj]
  rw [hbs]
  simp only [dataOff_eq, CLUSTER_SIZE_eq]
  rcases Nat.lt_or_ge c' c with h | h
  · left; omega
  · right; omega

theorem fatVal_write_data (d : Disk) (c j : Nat) (bs : List Nat) (hj : j < 1024) :
    fatVal (writeBytes d (DATA_START_SECTOR * SECTOR_SIZE + (c - 2) * CLUSTER_SIZE) bs) j
      = fatVal d j := by
  unfold fatVal
  rw [readBytes_writeBytes_disj]
  simp only [dataOff_eq, fatOff_eq]
  omega

theorem slotBytes_write_data (d : Disk) (c i : Nat) (bs : List Nat) (hi : i < 32) :
    slotBytes (writeBytes d (DATA_START_SECTOR * SECTOR_SIZE + (c - 2) * CLUSTER_SIZE) bs) i
      = slotBytes d i := by
  unfold slotBytes
  rw [readBytes_writeBytes_disj]
  simp only [dataOff_eq, rootOff_eq, DIR_ENTRY_SIZE_eq]
  omega

theorem dirByte_write_data (d : Disk) (c i : Nat) (bs : List Nat) (hi : i < 2048) :
    dirByte (writeBytes d (DATA_START_SECTOR * SECTOR_SIZE + (c - 2) * CLUSTER_SIZE) bs) i
      = dirByte d i := by
  unfold dirByte
  apply writeBytes_out
  simp only [dataOff_eq, rootOff_eq]
  omega

/-! ### Directory-region characterisation -/

theorem readRootDir_length (d : Disk) : (readRootDir d).length = 2048 := by
  unfold readRootDir
  rw [readBytes_length, rootDirSize_eq]

theorem extract_readBytes (d : Disk) (off N a n : Nat) (h : a + n ≤ N) :
    extract (readBytes d off N) a n = readBytes d (off + a) n := by
  apply List.ext_getElem?
  intro i
  rw [extract_getElem?]
  by_cases hi : i < n
  · rw [if_pos hi, readBytes_getElem? _ _ _ _ hi, readBytes_getElem? _ _ _ _ (by omega)]
    rw [show off + (a + i) = off + a + i by omega]
  · rw [if_neg hi]
    have h1 : (readBytes d (off + a) n).length ≤ i := by rw [readBytes_length]; omega
    rw [List.getElem?_eq_none h1]

theorem extract_readRootDir (d : Disk) (i : Nat) (hi : i < 32) :
    extract (readRootDir d) (i * DIR_ENTRY_SIZE) DIR_ENTRY_SIZE = slotBytes d i := by
  unfold readRootDir slotBytes
  rw [extract_readBytes]
  simp only [rootDirSize_eq, DIR_ENTRY_SIZE_eq]
  omega

theorem readRootDir_getD (d : Disk) (i : Nat) (hi : i < 2048) :
    (readRootDir d).getD i 0 = dirByte d i := by
  unfold readRootDir dirByte
  rw [readBytes_getD]
  rw [rootDirSize_eq]
  exact hi

theorem slotBytes_getD_zero (d : Disk) (i : Nat) :
    (slotBytes d i).getD 0 0 = dirByte d (i * DIR_ENTRY_SIZE) := by
  unfold slotBytes dirByte
  rw [readBytes_getD]
  · rw [Nat.add_zero]
  · rw [DIR_ENTRY_SIZE_eq]; omega

theorem to_bytes_length (e : FileEntry) : e.to_bytes.length = 64 := by
  unfold FileEntry.to_bytes
  simp [MAX_FILENAME_LENGTH_eq, toLE4]
  omega

theorem spliced_length (buf tb : List Nat) (i : Nat)
    (hbuf : buf.length = 2048) (htb : tb.length = 64) (hi : i < 32) :
    (buf.take (i * DIR_ENTRY_SIZE) ++ tb ++ buf.drop (i * DIR_ENTRY_SIZE + DIR_ENTRY_SIZE)).length
      = 2048 := by
  simp [DIR_ENTRY_SIZE_eq, htb, hbuf]
  omega

theorem extract_spliced_self (buf tb : List Nat) (i : Nat)
    (hbuf : buf.length = 2048) (htb : tb.length = 64) (hi : i < 32) :
    extract (buf.take (i * DIR_ENTRY_SIZE) ++ tb ++ buf.drop (i * DIR_ENTRY_SIZE + DIR_ENTRY_SIZE))
      (i * DIR_ENTRY_SIZE) 64 = tb := by
  have hlen : (buf.take (i * DIR_ENTRY_SIZE)).length = i * DIR_ENTRY_SIZE := by
    rw [List.length_take]
    simp [DIR_ENTRY_SIZE_eq, hbuf]
    omega
  unfold extract
  rw [List.append_assoc, List.drop_append_of_le_length (by omega), List.drop_of_length_le (by omega)]
  simp [List.take_append_of_le_length, htb]

theorem extract_spliced_ne (buf tb : List Nat) (i j : Nat)
    (hbuf : buf.length = 2048) (htb : tb.length = 64) (hi : i < 32) (hj : j < 32) (hne : j ≠ i) :
    extract (buf.take (i * DIR_ENTRY_SIZE) ++ tb ++ buf.drop (i * DIR_ENTRY_SIZE + DIR_ENTRY_SIZE))
      (j * DIR_ENTRY_SIZE) 64 = extract buf (j * DIR_ENTRY_SIZE) 64 := by
  apply List.ext_getElem?
  intro t
  rw [extract_getElem?, extract_getElem?]
  by_cases ht : t < 64
  · rw [if_pos ht, if_pos ht]
    have hppl : (buf.take (i * DIR_ENTRY_SIZE) ++ tb).length = min (i * DIR_ENTRY_SIZE) 2048 + 64 := by
      simp [htb, hbuf]
    rcases Nat.lt_or_ge j i with hlt | hge
    · rw [List.append_assoc, List.getElem?_append_left, List.getElem?_take]
      · rw [if_pos (by simp only [DIR_ENTRY_SIZE_eq]; omega)]
      · rw [List.length_take]; simp only [DIR_ENTRY_SIZE_eq] at *; omega
    · have hgt : i < j := by omega
      rw [List.getElem?_append_right, List.getElem?_drop]
      · congr 1
        rw [hppl]
        simp [DIR_ENTRY_SIZE_eq] at *
        omega
      · rw [hppl]
        simp [DIR_ENTRY_SIZE_eq] at *
        omega
  · rw [if_neg ht, if_neg ht]

theorem slotBytes_writeDir (d : Disk) (buf : List Nat) (i : Nat)
    (hbuf : buf.length = 2048) (hi : i < 32) :
    slotBytes (writeBytes d (ROOT_DIR_START_SECTOR * SECTOR_SIZE) buf) i
      = extract buf (i * DIR_ENTRY_SIZE) 64 := by
  unfold slotBytes
  have h := @readBytes_writeBytes_sub (ROOT_DIR_START_SECTOR * SECTOR_SIZE)
    (i * DIR_ENTRY_SIZE) DIR_ENTRY_SIZE d buf
    (by simp only [DIR_ENTRY_SIZE_eq, hbuf]; omega)
  rw [h]
  rfl

theorem fatVal_writeDir (d : Disk) (buf : List Nat) (j : Nat)
    (hbuf : buf.length = 2048) (hj : j < 1024) :
    fatVal (writeBytes d (ROOT_DIR_START_SECTOR * SECTOR_SIZE) buf) j = fatVal d j := by
  unfold fatVal
  rw [readBytes_writeBytes_disj]
  rw [hbuf]
  simp only [rootOff_eq, fatOff_eq]
  omega

theorem clusterBytes_writeDir (d : Disk) (buf : List Nat) (c : Nat)
    (hbuf : buf.length = 2048) :
    clusterBytes (writeBytes d (ROOT_DIR_START_SECTOR * SECTOR_SIZE) buf) c = clusterBytes d c := by
  unfold clusterBytes
  rw [readBytes_writeBytes_disj]
  rw [hbuf]
  simp only [rootOff_eq, dataOff_eq]
  omega

theorem write_directory_entry_ok (d : Disk) (e : FileEntry) (i : Nat)
    (hc : chooseSlot (readRootDir d) e = some i) :
    write_directory_entry d e =
      .ok (writeBytes d (ROOT_DIR_START_SECTOR * SECTOR_SIZE)
        ((readRootDir d).take (i * DIR_ENTRY_SIZE) ++ e.to_bytes ++
          (readRootDir d).drop (i * DIR_ENTRY_SIZE + DIR_ENTRY_SIZE))) := by
  unfold write_directory_entry
  simp only [hc]

theorem chooseSlot_lt (buf : List Nat) (e : FileEntry) (i : Nat)
    (hc : chooseSlot buf e = some i) : i < 32 := by
  unfold chooseSlot at hc
  rw [entryCount_eq] at hc
  have h := List.find?_some hc
  have hm := List.mem_of_find?_eq_some hc
  rw [List.mem_range] at hm
  exact hm

theorem slotBytes_after_write_directory_entry (d : Disk) (e : FileEntry) (i j : Nat)
    (hi : i < 32) (hj : j < 32) :
    slotBytes (writeBytes d (ROOT_DIR_START_SECTOR * SECTOR_SIZE)
        ((readRootDir d).take (i * DIR_ENTRY_SIZE) ++ e.to_bytes ++
          (readRootDir d).drop (i * DIR_ENTRY_SIZE + DIR_ENTRY_SIZE))) j
      = if j = i then e.to_bytes else slotBytes d j := by
  rw [slotBytes_writeDir]
  · by_cases hji : j = i
    · rw [if_pos hji, hji]
      exact extract_spliced_self _ _ _ (readRootDir_length d) (to_bytes_length e) hi
    · rw [if_neg hji]
      rw [extract_spliced_ne _ _ _ _ (readRootDir_length d) (to_bytes_length e) hi hj hji]
      rw [show (64:Nat) = DIR_ENTRY_SIZE from rfl, extract_readRootDir d j hj]
  · exact spliced_length _ _ _ (readRootDir_length d) (to_bytes_length e) hi
  · exact hj

/-! ### Directory scans in terms of the slot list -/

theorem entriesOfSlots_nil : entriesOfSlots [] = [] := rfl

theorem entriesOfSlots_cons (s : List Nat) (rest : List (List Nat)) :
    entriesOfSlots (s :: rest) =
      (if s.getD 0 0 ≠ 0 then
        match FileEntry.from_bytes s with
        | some e => if e.is_deleted then [] else [e]
        | none => []
      else []) ++ entriesOfSlots rest := rfl

theorem entriesOfSlots_append (L1 L2 : List (List Nat)) :
    entriesOfSlots (L1 ++ L2) = entriesOfSlots L1 ++ entriesOfSlots L2 := by
  induction L1 with
  | nil => simp [entriesOfSlots]
  | cons s rest ih => simp [entriesOfSlots, ih]

theorem entries_fold_range (g : Nat → List Nat) : ∀ (n : Nat) (acc : List FileEntry),
    (List.range n).foldl
      (fun acc i =>
        if (g i).getD 0 0 ≠ 0 then
          match FileEntry.from_bytes (g i) with
          | some e => if e.is_deleted then acc else acc ++ [e]
          | none => acc
        else acc) acc
    = acc ++ entriesOfSlots ((List.range n).map g) := by
  intro n
  induction n with
  | zero => intro acc; simp [entriesOfSlots]
  | succ n ih =>
    intro acc
    rw [List.range_succ, List.foldl_append, List.map_append, entriesOfSlots_append, ih]
    simp only [List.foldl_cons, List.foldl_nil, List.map_cons, List.map_nil]
    rw [entriesOfSlots_cons, entriesOfSlots_nil, List.append_nil]
    by_cases h0 : (g n).getD 0 0 ≠ 0
    · rw [if_pos h0, if_pos h0]
      cases hfb : FileEntry.from_bytes (g n) with
      | none => simp
      | some e =>
        by_cases hdel : e.is_deleted
        · simp [hdel]
        · simp [hdel, List.append_assoc]
    · rw [if_neg h0, if_neg h0, List.append_nil]

theorem entriesFromBuffer_eq (d : Disk) :
    entriesFromBuffer (readRootDir d) = entriesOfSlots (slotsList d) := by
  have hmap : (List.range 32).map
      (fun i => extract (readRootDir d) (i * DIR_ENTRY_SIZE) DIR_ENTRY_SIZE) = slotsList d := by
    unfold slotsList
    apply List.map_congr_left
    intro i hi
    rw [List.mem_range] at hi
    exact extract_readRootDir d i hi
  have h := entries_fold_range
    (fun i => extract (readRootDir d) (i * DIR_ENTRY_SIZE) DIR_ENTRY_SIZE) 32 []
  rw [hmap, List.nil_append] at h
  exact h

theorem read_directory_entries_eq (d : Disk) :
    read_directory_entries d = .ok (entriesOfSlots (slotsList d)) := by
  unfold read_directory_entries
  rw [entriesFromBuffer_eq]

theorem list_files_eq (d : Disk) :
    list_files d = .ok (entriesOfSlots (slotsList d)) := by
  unfold list_files
  exact read_directory_entries_eq d

theorem find_file_eq (d : Disk) (name : List Nat) :
    find_file d name = .ok ((entriesOfSlots (slotsList d)).find?
      (fun e => e.name == name && !e.is_deleted)) := by
  unfold find_file
  rw [entriesFromBuffer_eq]

theorem find?_congr {α : Type} (p q : α → Bool) :
    ∀ (L : List α), (∀ x ∈ L, p x = q x) → L.find? p = L.find? q := by
  intro L
  induction L with
  | nil => intro _; rfl
  | cons x rest ih =>
    intro h
    rw [List.find?_cons, List.find?_cons, h x (List.mem_cons_self x rest)]
    cases hq : q x with
    | true => rfl
    | false => exact ih (fun y hy => h y (List.mem_cons_of_mem x hy))

theorem chooseSlot_eq (d : Disk) (e : FileEntry) :
    chooseSlot (readRootDir d) e
      = (List.range 32).find? (fun i => slotPred (slotBytes d i) e) := by
  unfold chooseSlot
  rw [entryCount_eq]
  apply find?_congr
  intro i hi
  rw [List.mem_range] at hi
  unfold slotPred
  rw [readRootDir_getD d (i * DIR_ENTRY_SIZE) (by simp only [DIR_ENTRY_SIZE_eq]; omega)]
  rw [← slotBytes_getD_zero]
  rw [extract_readRootDir d i hi]

/-! ### The freshly formatted disk -/

theorem bootSector_length : bootSector.length = 512 := by
  unfold bootSector
  rw [List.length_map, List.length_range]
  rfl

theorem fatSector0_length : fatSector0.length = 512 := by
  unfold fatSector0
  rw [List.length_append, List.length_append, List.length_replicate]
  rfl

theorem writeBytes_apply (d : Disk) (off : Nat) (bs : List Nat) (b : Nat) :
    writeBytes d off bs b =
      if off ≤ b ∧ b < off + bs.length then bs.getD (b - off) 0 else d b := rfl

theorem getD_replicate_zero (n i : Nat) : (List.replicate n (0 : Nat)).getD i 0 = 0 := by
  rcases Nat.lt_or_ge i n with h | h
  · rw [List.getD_eq_getElem?_getD, List.getElem?_replicate, if_pos h]
    rfl
  · rw [List.getD_eq_getElem?_getD, List.getElem?_eq_none (by simpa using h)]
    rfl

theorem fatZeros_byte (d : Disk) (b : Nat) :
    ((List.range (FAT_SIZE_SECTORS - 1)).foldl
      (fun d i => writeBytes d ((FAT_START_SECTOR + 1 + i) * SECTOR_SIZE)
        (List.replicate SECTOR_SIZE 0)) d) b
      = (if 1024 ≤ b ∧ b < 4608 then 0 else d b) := by
  rw [show List.range (FAT_SIZE_SECTORS - 1) = [0, 1, 2, 3, 4, 5, 6] by decide]
  simp only [List.foldl_cons, List.foldl_nil]
  simp only [writeBytes_apply, List.length_replicate, getD_replicate_zero]
  norm_num [SECTOR_SIZE, FAT_START_SECTOR, BOOT_SECTOR_COUNT]
  split_ifs <;> first | rfl | omega

theorem dirZeros_byte (d : Disk) (b : Nat) :
    ((List.range ROOT_DIR_SECTORS).foldl
      (fun d i => writeBytes d ((ROOT_DIR_START_SECTOR + i) * SECTOR_SIZE)
        (List.replicate SECTOR_SIZE 0)) d) b
      = (if 4608 ≤ b ∧ b < 6656 then 0 else d b) := by
  rw [show List.range ROOT_DIR_SECTORS = [0, 1, 2, 3] by decide]
  simp only [List.foldl_cons, List.foldl_nil]
  simp only [writeBytes_apply, List.length_replicate, getD_replicate_zero]
  norm_num [SECTOR_SIZE, ROOT_DIR_START_SECTOR, FAT_START_SECTOR, BOOT_SECTOR_COUNT,
    FAT_SIZE_SECTORS, MAX_CLUSTERS, FAT_ENTRIES_PER_SECTOR]
  split_ifs <;> first | rfl | omega

theorem format_byte (b : Nat) :
    format b = (if b < 512 then bootSector.getD b 0
      else if b < 1024 then fatSector0.getD (b - 512) 0
      else 0) := by
  unfold format
  rw [dirZeros_byte, fatZeros_byte, writeBytes_apply, writeBytes_apply]
  rw [bootSector_length, fatSector0_length]
  rw [fatOff_eq]
  simp only [Nat.sub_zero]
  split_ifs <;> omega

theorem fatSector0_getD_ge8 (j : Nat) (h : 8 ≤ j) : fatSector0.getD j 0 = 0 := by
  unfold fatSector0
  rcases Nat.lt_or_ge j 512 with hj | hj
  · rw [List.getD_eq_getElem?_getD, List.getElem?_append_right (by simp [toLE4]; omega)]
    rw [List.getElem?_replicate]
    rw [if_pos (by simp [toLE4, SECTOR_SIZE]; omega)]
    rfl
  · rw [List.getD_eq_getElem?_getD, List.getElem?_eq_none]
    · rfl
    · rw [show (toLE4 FAT_EOC ++ toLE4 FAT_EOC ++ List.replicate (SECTOR_SIZE - 8) 0)
        = fatSector0 from rfl, fatSector0_length]
      omega

theorem format_byte_hi (b : Nat) (h : 520 ≤ b) : format b = 0 := by
  rw [format_byte, if_neg (by omega)]
  by_cases hb : b < 1024
  · rw [if_pos hb]
    exact fatSector0_getD_ge8 _ (by omega)
  · rw [if_neg hb]

theorem readBytes_four (d : Disk) (off : Nat) :
    readBytes d off 4 = [d (off + 0), d (off + 1), d (off + 2), d (off + 3)] := rfl

theorem fatVal_format_free (c : Nat) (h : 2 ≤ c) : fatVal format c = 0 := by
  unfold fatVal
  rw [readBytes_four, fatOff_eq]
  rw [format_byte_hi _ (by omega), format_byte_hi _ (by omega),
    format_byte_hi _ (by omega), format_byte_hi _ (by omega)]
  rfl

theorem format_byte_fat01 (t : Nat) (ht : t < 8) : format (512 + t) = 255 := by
  rw [format_byte, if_neg (by omega), if_pos (by omega)]
  have hts : 512 + t - 512 = t := by omega
  rw [hts]
  interval_cases t <;> rfl

theorem fatVal_format_0 : fatVal format 0 = FAT_EOC := by
  unfold fatVal
  rw [readBytes_four, fatOff_eq]
  rw [show 512 + 0 * 4 + 0 = 512 + 0 from rfl, show 512 + 0 * 4 + 1 = 512 + 1 from rfl,
    show 512 + 0 * 4 + 2 = 512 + 2 from rfl, show 512 + 0 * 4 + 3 = 512 + 3 from rfl]
  rw [format_byte_fat01 0 (by omega), format_byte_fat01 1 (by omega),
    format_byte_fat01 2 (by omega), format_byte_fat01 3 (by omega)]
  rfl

theorem fatVal_format_1 : fatVal format 1 = FAT_EOC := by
  unfold fatVal
  rw [readBytes_four, fatOff_eq]
  rw [show 512 + 1 * 4 + 0 = 512 + 4 from rfl, show 512 + 1 * 4 + 1 = 512 + 5 from rfl,
    show 512 + 1 * 4 + 2 = 512 + 6 from rfl, show 512 + 1 * 4 + 3 = 512 + 7 from rfl]
  rw [format_byte_fat01 4 (by omega), format_byte_fat01 5 (by omega),
    format_byte_fat01 6 (by omega), format_byte_fat01 7 (by omega)]
  rfl

theorem dirByte_format (i : Nat) : dirByte format i = 0 := by
  unfold dirByte
  rw [rootOff_eq]
  exact format_byte_hi _ (by omega)

theorem readBytes_all_zero (d : Disk) (off n : Nat) (h : ∀ t, t < n → d (off + t) = 0) :
    readBytes d off n = List.replicate n 0 := by
  apply List.ext_getElem?
  intro i
  by_cases hi : i < n
  · rw [readBytes_getElem? _ _ _ _ hi, List.getElem?_replicate, if_pos hi, h i hi]
  · rw [List.getElem?_eq_none (by rw [readBytes_length]; omega),
      List.getElem?_eq_none (by rw [List.length_replicate]; omega)]

theorem slotBytes_format (i : Nat) : slotBytes format i = List.replicate 64 0 := by
  unfold slotBytes
  rw [show DIR_ENTRY_SIZE = 64 from rfl]
  apply readBytes_all_zero
  intro t ht
  rw [rootOff_eq]
  exact format_byte_hi _ (by omega)

theorem clusterBytes_format (c : Nat) : clusterBytes format c = List.replicate CLUSTER_SIZE 0 := by
  unfold clusterBytes
  apply readBytes_all_zero
  intro t ht
  rw [dataOff_eq]
  exact format_byte_hi _ (by omega)

theorem WState_format : WState format 2 := by
  refine ⟨?_, ?_, ?_, ?_, ?_, ?_⟩
  · intro j h2 hj; omega
  · intro j h2 hj; exact fatVal_format_free j h2
  · exact dirByte_format 0
  · intro i h1 hi; exact slotBytes_format i
  · omega
  · omega

/-! ### Encoding and decoding directory entries -/

theorem nameField_length (e : FileEntry) :
    (e.name.take MAX_FILENAME_LENGTH ++
      List.replicate (MAX_FILENAME_LENGTH - min e.name.length MAX_FILENAME_LENGTH) 0).length
      = 32 := by
  simp [MAX_FILENAME_LENGTH_eq]
  omega

theorem to_bytes_assoc (e : FileEntry) :
    e.to_bytes =
      (e.name.take MAX_FILENAME_LENGTH ++
        List.replicate (MAX_FILENAME_LENGTH - min e.name.length MAX_FILENAME_LENGTH) 0) ++
      (toLE4 (e.size % 2 ^ 32) ++ (toLE4 (e.compressed_size % 2 ^ 32) ++
      (toLE4 (e.first_cluster % 2 ^ 32) ++
      ([if e.is_deleted then 1 else 0, if e.is_compressed then 1 else 0,
        e.compression_method % 256] ++
      List.replicate 17 0)))) := by
  unfold FileEntry.to_bytes
  simp [List.append_assoc]

theorem takeWhile_ne_zero_append (l1 l2 : List Nat) (h : ∀ b ∈ l1, b ≠ 0) :
    (l1 ++ l2).takeWhile (fun b => b ≠ 0) = l1 ++ l2.takeWhile (fun b => b ≠ 0) := by
  induction l1 with
  | nil => simp
  | cons b rest ih =>
    have hb : b ≠ 0 := h b (List.mem_cons_self b rest)
    have ih2 := ih (fun x hx => h x (List.mem_cons_of_mem b hx))
    simp only [ne_eq, decide_not] at ih2 ⊢
    simp [List.takeWhile_cons, hb, ih2]

theorem takeWhile_replicate_zero (n : Nat) :
    (List.replicate n (0 : Nat)).takeWhile (fun b => b ≠ 0) = [] := by
  cases n with
  | zero => rfl
  | succ m => simp [List.replicate_succ, List.takeWhile_cons]

theorem to_bytes_name (e : FileEntry) (hlen : e.name.length ≤ 32)
    (hnz : ∀ b ∈ e.name, b ≠ 0) :
    (e.to_bytes.take MAX_FILENAME_LENGTH).takeWhile (fun b => b ≠ 0) = e.name := by
  rw [to_bytes_assoc]
  rw [List.take_append_of_le_length (by rw [nameField_length]; rw [MAX_FILENAME_LENGTH_eq])]
  rw [show e.name.take MAX_FILENAME_LENGTH = e.name from
    List.take_of_length_le (by rw [MAX_FILENAME_LENGTH_eq]; omega)]
  rw [show MAX_FILENAME_LENGTH - min e.name.length MAX_FILENAME_LENGTH
      = 32 - e.name.length by rw [MAX_FILENAME_LENGTH_eq]; omega]
  rw [List.take_of_length_le (by simp [MAX_FILENAME_LENGTH_eq]; omega)]
  rw [takeWhile_ne_zero_append _ _ hnz, takeWhile_replicate_zero, List.append_nil]

theorem extract_append_of_length (l1 l2 : List Nat) (n k : Nat) (h : l1.length = n)
    (hk : k ≤ l2.length) :
    extract (l1 ++ l2) n k = l2.take k := by
  unfold extract
  rw [← h, List.drop_left]

theorem to_bytes_size (e : FileEntry) :
    extract e.to_bytes 32 4 = toLE4 (e.size % 2 ^ 32) := by
  rw [to_bytes_assoc]
  rw [extract_append_of_length _ _ _ _ (nameField_length e) (by simp [toLE4])]
  rw [List.take_append_of_le_length (by rw [toLE4_length])]
  rw [List.take_of_length_le (by rw [toLE4_length])]

theorem extract_append_ge (l1 l2 : List Nat) (off n : Nat) (h : l1.length ≤ off) :
    extract (l1 ++ l2) off n = extract l2 (off - l1.length) n := by
  apply List.ext_getElem?
  intro i
  rw [extract_getElem?, extract_getElem?]
  by_cases hi : i < n
  · rw [if_pos hi, if_pos hi, List.getElem?_append_right (by omega)]
    congr 1
    omega
  · rw [if_neg hi, if_neg hi]

theorem to_bytes_csize (e : FileEntry) :
    extract e.to_bytes 36 4 = toLE4 (e.compressed_size % 2 ^ 32) := by
  rw [to_bytes_assoc]
  rw [extract_append_ge _ _ _ _ (by rw [nameField_length]; omega)]
  rw [nameField_length]
  rw [show (36 : Nat) - 32 = 4 from rfl]
  rw [extract_append_ge _ _ _ _ (by rw [toLE4_length])]
  rw [toLE4_length]
  rw [show (4 : Nat) - 4 = 0 from rfl]
  unfold extract
  rw [List.drop_zero, List.take_append_of_le_length (by rw [toLE4_length]),
    List.take_of_length_le (by rw [toLE4_length])]

theorem to_bytes_fcluster (e : FileEntry) :
    extract e.to_bytes 40 4 = toLE4 (e.first_cluster % 2 ^ 32) := by
  rw [to_bytes_assoc]
  rw [extract_append_ge _ _ _ _ (by rw [nameField_length]; omega)]
  rw [nameField_length]
  rw [show (40 : Nat) - 32 = 8 from rfl]
  rw [extract_append_ge _ _ _ _ (by rw [toLE4_length]; omega)]
  rw [toLE4_length]
  rw [show (8 : Nat) - 4 = 4 from rfl]
  rw [extract_append_ge _ _ _ _ (by rw [toLE4_length])]
  rw [toLE4_length]
  rw [show (4 : Nat) - 4 = 0 from rfl]
  unfold extract
  rw [List.drop_zero, List.take_append_of_le_length (by rw [toLE4_length]),
    List.take_of_length_le (by rw [toLE4_length])]

theorem to_bytes_getD_ge32 (e : FileEntry) (t : Nat) (h : 32 ≤ t) :
    e.to_bytes.getD t 0 =
      (toLE4 (e.size % 2 ^ 32) ++ (toLE4 (e.compressed_size % 2 ^ 32) ++
       (toLE4 (e.first_cluster % 2 ^ 32) ++
       ([if e.is_deleted then 1 else 0, if e.is_compressed then 1 else 0,
         e.compression_method % 256] ++ List.replicate 17 0)))).getD (t - 32) 0 := by
  rw [to_bytes_assoc]
  have h2 := List.getD_append_right
    (e.name.take MAX_FILENAME_LENGTH ++
      List.replicate (MAX_FILENAME_LENGTH - min e.name.length MAX_FILENAME_LENGTH) 0)
    (toLE4 (e.size % 2 ^ 32) ++ (toLE4 (e.compressed_size % 2 ^ 32) ++
      (toLE4 (e.first_cluster % 2 ^ 32) ++
      ([if e.is_deleted then 1 else 0, if e.is_compressed then 1 else 0,
        e.compression_method % 256] ++ List.replicate 17 0))))
    0 t (by rw [nameField_length e]; omega)
  rw [h2, nameField_length e]

theorem to_bytes_getD_44 (e : FileEntry) :
    e.to_bytes.getD 44 0 = (if e.is_deleted then 1 else 0) := by
  rw [to_bytes_getD_ge32 e 44 (by omega)]
  rfl

theorem to_bytes_getD_45 (e : FileEntry) :
    e.to_bytes.getD 45 0 = (if e.is_compressed then 1 else 0) := by
  rw [to_bytes_getD_ge32 e 45 (by omega)]
  rfl

theorem to_bytes_getD_46 (e : FileEntry) :
    e.to_bytes.getD 46 0 = e.compression_method % 256 := by
  rw [to_bytes_getD_ge32 e 46 (by omega)]
  rfl

theorem to_bytes_getD_0 (e : FileEntry) : e.to_bytes.getD 0 0 = e.name.headD 0 := by
  rw [to_bytes_assoc]
  rw [List.getD_append _ _ _ _ (by rw [nameField_length e]; omega)]
  cases hn : e.name with
  | nil => simp [MAX_FILENAME_LENGTH_eq, getD_replicate_zero]
  | cons b rest =>
    simp [MAX_FILENAME_LENGTH_eq, List.take_succ_cons]

theorem mod_mod_32 (v : Nat) : v % 2 ^ 32 % 2 ^ 32 = v % 2 ^ 32 := by omega

theorem mod_mod_256 (v : Nat) : v % 256 % 256 = v % 256 := by omega

theorem from_bytes_to_bytes (e : FileEntry) (hlen : e.name.length ≤ 32)
    (hnz : ∀ b ∈ e.name, b ≠ 0) :
    FileEntry.from_bytes e.to_bytes = some
      { name := e.name
        size := e.size % 2 ^ 32
        compressed_size := e.compressed_size % 2 ^ 32
        first_cluster := e.first_cluster % 2 ^ 32
        is_deleted := e.is_deleted
        is_compressed := e.is_compressed
        compression_method := e.compression_method % 256 } := by
  unfold FileEntry.from_bytes
  rw [if_neg (by rw [to_bytes_length]; rw [DIR_ENTRY_SIZE_eq]; omega)]
  rw [to_bytes_name e hlen hnz, to_bytes_size e, to_bytes_csize e, to_bytes_fcluster e,
    to_bytes_getD_44 e, to_bytes_getD_45 e, to_bytes_getD_46 e,
    fromLE4_toLE4, fromLE4_toLE4, fromLE4_toLE4, mod_mod_32, mod_mod_32, mod_mod_32]
  cases hd : e.is_deleted <;> cases hc : e.is_compressed <;> simp

/-! ### RLE round trip -/

theorem rle_decompress_rleLoop (rest : List Nat) : ∀ (cur cnt : Nat),
    rle_decompress_data (rleLoop rest cur cnt) = List.replicate cnt cur ++ rest := by
  induction rest with
  | nil =>
    intro cur cnt
    simp [rleLoop, rle_decompress_data]
  | cons b rest ih =>
    intro cur cnt
    rw [rleLoop]
    by_cases h : b = cur ∧ cnt < 255
    · rw [if_pos h, ih cur (cnt + 1), h.1]
      rw [List.replicate_succ' cnt cur]
      simp
    · rw [if_neg h]
      simp only [rle_decompress_data]
      rw [ih b 1]
      simp [List.replicate]

theorem rle_roundtrip (data : List Nat) :
    rle_decompress_data (rle_compress_data data) = data := by
  cases data with
  | nil => rfl
  | cons b rest =>
    rw [rle_compress_data, rle_decompress_rleLoop rest b 1]
    simp [List.replicate]

/-! ### The cluster allocator -/

theorem allocLoop_all_ne (d : Disk) : ∀ (L : List Nat),
    (∀ c ∈ L, c < 525824 ∧ fatVal d c ≠ FAT_FREE) → allocLoop d L = .error .noSpace := by
  intro L
  induction L with
  | nil => intro _; rfl
  | cons c rest ih =>
    intro h
    obtain ⟨hc, hv⟩ := h c (List.mem_cons_self c rest)
    rw [allocLoop, get_next_cluster_eq d c hc]
    simp only []
    rw [if_neg hv]
    exact ih (fun x hx => h x (List.mem_cons_of_mem c hx))

theorem allocLoop_first (d : Disk) : ∀ (L1 : List Nat) (c0 : Nat) (L2 : List Nat),
    (∀ c ∈ L1, c < 525824 ∧ fatVal d c ≠ FAT_FREE) → c0 < 525824 → fatVal d c0 = FAT_FREE →
    allocLoop d (L1 ++ c0 :: L2) = .ok (c0, set_next_cluster d c0 FAT_EOC) := by
  intro L1
  induction L1 with
  | nil =>
    intro c0 L2 _ hc0 hv0
    rw [List.nil_append, allocLoop, get_next_cluster_eq d c0 hc0]
    simp only []
    rw [if_pos hv0]
  | cons c rest ih =>
    intro c0 L2 h hc0 hv0
    obtain ⟨hc, hv⟩ := h c (List.mem_cons_self c rest)
    rw [List.cons_append, allocLoop, get_next_cluster_eq d c hc]
    simp only []
    rw [if_neg hv]
    exact ih c0 L2 (fun x hx => h x (List.mem_cons_of_mem c hx)) hc0 hv0

theorem range'_split (c0 : Nat) (h2 : 2 ≤ c0) (hlt : c0 < 1024) :
    List.range' 2 (MAX_CLUSTERS - 2)
      = List.range' 2 (c0 - 2) ++ c0 :: List.range' (c0 + 1) (1023 - c0) := by
  have h1 := List.range'_append_1 2 (c0 - 2) (1024 - c0)
  rw [show 2 + (c0 - 2) = c0 by omega, show 1024 - c0 + (c0 - 2) = 1022 by omega] at h1
  have h3 : List.range' c0 (1024 - c0) = c0 :: List.range' (c0 + 1) (1023 - c0) := by
    rw [show 1024 - c0 = 1023 - c0 + 1 by omega]
    have h4 := List.range'_succ c0 (1023 - c0) 1
    rw [h4]
  rw [show MAX_CLUSTERS - 2 = 1022 from rfl, ← h1, h3]

theorem allocate_cluster_none (d : Disk)
    (h : ∀ c, 2 ≤ c → c < 1024 → fatVal d c ≠ FAT_FREE) :
    allocate_cluster d = .error .noSpace := by
  unfold allocate_cluster
  apply allocLoop_all_ne
  intro c hc
  rw [List.mem_range'_1] at hc
  rw [show MAX_CLUSTERS - 2 = 1022 from rfl] at hc
  exact ⟨by omega, h c (by omega) (by omega)⟩

theorem allocate_cluster_found (d : Disk) (c0 : Nat) (h2 : 2 ≤ c0) (hlt : c0 < 1024)
    (hfree : fatVal d c0 = FAT_FREE)
    (hbefore : ∀ j, 2 ≤ j → j < c0 → fatVal d j ≠ FAT_FREE) :
    allocate_cluster d = .ok (c0, set_next_cluster d c0 FAT_EOC) := by
  unfold allocate_cluster
  rw [range'_split c0 h2 hlt]
  apply allocLoop_first
  · intro c hc
    rw [List.mem_range'_1] at hc
    exact ⟨by omega, hbefore c (by omega) (by omega)⟩
  · omega
  · exact hfree

/-! ### Termination of the chain-freeing walk -/

theorem freeChainLoop_succ (fuel : Nat) (d : Disk) (current : Nat) :
    freeChainLoop (fuel + 1) d current =
      (if current ≠ FAT_EOC ∧ 2 ≤ current then
        match get_next_cluster d current with
        | .error e => some (.error e)
        | .ok next => freeChainLoop fuel (set_next_cluster d current FAT_FREE) next
      else some (.ok d)) := rfl

theorem freeChainLoop_terminates : ∀ (n : Nat) (d : Disk) (current : Nat),
    ((Finset.range 525824).filter (fun c => fatVal d c ≠ 0)).card + 2 ≤ n →
    (freeChainLoop n d current).isSome = true := by
  intro n
  induction n with
  | zero =>
    intro d current h
    omega
  | succ n ih =>
    intro d current h
    rw [freeChainLoop_succ]
    by_cases hcond : current ≠ FAT_EOC ∧ 2 ≤ current
    · rw [if_pos hcond]
      by_cases hin : current < 525824
      · rw [get_next_cluster_eq d current hin]
        simp only []
        by_cases hz : fatVal d current = 0
        · rw [hz]
          obtain ⟨m, rfl⟩ : ∃ m, n = m + 1 := ⟨n - 1, by omega⟩
          rw [freeChainLoop_succ]
          rw [if_neg (by omega)]
          rfl
        · apply ih
          have hsame : ∀ c, c < 525824 →
              fatVal (set_next_cluster d current FAT_FREE) c
                = (if c = current then 0 else fatVal d c) := by
            intro c hc
            by_cases hcc : c = current
            · rw [if_pos hcc, hcc, fatVal_set_next_self]
              rfl
            · rw [if_neg hcc, fatVal_set_next_ne d current FAT_FREE c hcc]
          have hsub : (Finset.range 525824).filter
                (fun c => fatVal (set_next_cluster d current FAT_FREE) c ≠ 0)
              = ((Finset.range 525824).filter (fun c => fatVal d c ≠ 0)).erase current := by
            apply Finset.ext
            intro c
            simp only [Finset.mem_filter, Finset.mem_erase, Finset.mem_range]
            constructor
            · intro ⟨hcr, hcv⟩
              rw [hsame c hcr] at hcv
              by_cases hcc : c = current
              · rw [if_pos hcc] at hcv
                exact absurd rfl hcv
              · rw [if_neg hcc] at hcv
                exact ⟨hcc, hcr, hcv⟩
            · intro ⟨hcc, hcr, hcv⟩
              refine ⟨hcr, ?_⟩
              rw [hsame c hcr, if_neg hcc]
              exact hcv
          rw [hsub]
          have hmem : current ∈ (Finset.range 525824).filter (fun c => fatVal d c ≠ 0) :=
            Finset.mem_filter.mpr ⟨Finset.mem_range.mpr hin, hz⟩
          rw [Finset.card_erase_of_mem hmem]
          have hpos : 0 < ((Finset.range 525824).filter (fun c => fatVal d c ≠ 0)).card :=
            Finset.card_pos.mpr ⟨current, hmem⟩
          omega
      · rw [get_next_cluster_err d current (by omega)]
        rfl
    · rw [if_neg hcond]
      rfl

theorem freeChainLoop_isSome (d : Disk) (start : Nat) :
    (freeChainLoop FREE_FUEL d start).isSome = true := by
  apply freeChainLoop_terminates
  have hle : ((Finset.range 525824).filter (fun c => fatVal d c ≠ 0)).card ≤ 525824 := by
    have := Finset.card_filter_le (Finset.range 525824) (fun c => fatVal d c ≠ 0)
    simpa using this
  rw [FREE_FUEL_eq]
  omega

theorem freeChainLoop_no_fuelOut : ∀ (n : Nat) (d : Disk) (current : Nat),
    freeChainLoop n d current ≠ some (.error .fuelOut) := by
  intro n
  induction n with
  | zero =>
    intro d current
    simp [freeChainLoop]
  | succ n ih =>
    intro d current
    rw [freeChainLoop_succ]
    by_cases hcond : current ≠ FAT_EOC ∧ 2 ≤ current
    · rw [if_pos hcond]
      unfold get_next_cluster
      by_cases hb : FAT_START_SECTOR * SECTOR_SIZE + current * 4 + 4 ≤ totalSize
      · rw [if_pos hb]
        simp only []
        exact ih _ _
      · rw [if_neg hb]
        simp
    · rw [if_neg hcond]
      simp

theorem free_cluster_chain_single (d : Disk) (c : Nat) (h2 : 2 ≤ c) (hc : c < 1024)
    (hv : fatVal d c = FAT_EOC) :
    free_cluster_chain d c = .ok (set_next_cluster d c FAT_FREE) := by
  unfold free_cluster_chain
  rw [if_neg (by omega)]
  rw [show FREE_FUEL = 525825 + 1 from rfl, freeChainLoop_succ]
  rw [if_pos ⟨by rw [FAT_EOC_eq]; omega, h2⟩]
  rw [get_next_cluster_eq d c (by omega), hv]
  simp only []
  rw [show (525825 : Nat) = 525824 + 1 from rfl, freeChainLoop_succ]
  rw [if_neg (by omega)]

/-! ### Directory scans over described slot lists -/

theorem entriesOfSlots_replicate_zero (n : Nat) :
    entriesOfSlots (List.replicate n (List.replicate 64 (0 : Nat))) = [] := by
  induction n with
  | zero => rfl
  | succ m ih =>
    rw [List.replicate_succ, entriesOfSlots_cons]
    rw [getD_replicate_zero, if_neg (by simp), List.nil_append, ih]

theorem entriesOfSlots_skip_head (s : List Nat) (rest : List (List Nat)) (h : s.getD 0 0 = 0) :
    entriesOfSlots (s :: rest) = entriesOfSlots rest := by
  rw [entriesOfSlots_cons, h]
  simp

theorem slotsList_eq_cons (d : Disk) :
    slotsList d = slotBytes d 0 :: (List.range 31).map (fun i => slotBytes d (i + 1)) := by
  unfold slotsList
  rw [show (32 : Nat) = 31 + 1 from rfl, List.range_succ_eq_map]
  simp [Nat.succ_eq_add_one, Function.comp]

theorem map_eq_replicate_of (L : List Nat) (g : Nat → List Nat) (v : List Nat)
    (h : ∀ x ∈ L, g x = v) : L.map g = List.replicate L.length v := by
  induction L with
  | nil => rfl
  | cons x rest ih =>
    rw [List.map_cons, h x (List.mem_cons_self x rest), List.length_cons, List.replicate_succ]
    rw [ih (fun y hy => h y (List.mem_cons_of_mem x hy))]

theorem slotsList_of_rest_zero (d : Disk)
    (hrest : ∀ i, 1 ≤ i → i < 32 → slotBytes d i = List.replicate 64 0) :
    slotsList d = slotBytes d 0 :: List.replicate 31 (List.replicate 64 0) := by
  rw [slotsList_eq_cons]
  congr 1
  have h := map_eq_replicate_of (List.range 31) (fun i => slotBytes d (i + 1))
    (List.replicate 64 0) (fun x hx => by
      rw [List.mem_range] at hx
      exact hrest (x + 1) (by omega) (by omega))
  rw [h, List.length_range]

theorem find_file_none_of_rest_zero (d : Disk) (name : List Nat)
    (hslot0 : dirByte d 0 = 0)
    (hrest : ∀ i, 1 ≤ i → i < 32 → slotBytes d i = List.replicate 64 0) :
    find_file d name = .ok none := by
  rw [find_file_eq, slotsList_of_rest_zero d hrest]
  rw [entriesOfSlots_skip_head _ _ (by
    rw [slotBytes_getD_zero]
    rw [show (0 : Nat) * DIR_ENTRY_SIZE = 0 from rfl]
    exact hslot0)]
  rw [entriesOfSlots_replicate_zero]
  rfl

theorem chooseSlot_zero_of_slot0 (d : Disk) (e : FileEntry) (hslot0 : dirByte d 0 = 0) :
    chooseSlot (readRootDir d) e = some 0 := by
  rw [chooseSlot_eq]
  rw [show (32 : Nat) = 31 + 1 from rfl, List.range_succ_eq_map]
  rw [List.find?_cons]
  have h0 : slotPred (slotBytes d 0) e = true := by
    unfold slotPred
    rw [slotBytes_getD_zero]
    rw [show (0 : Nat) * DIR_ENTRY_SIZE = 0 from rfl]
    rw [hslot0]
    rfl
  rw [h0]

/-! ### The write pipeline on a volume with a free FAT tail -/

theorem fatVal_set_next_EOC (d : Disk) (c : Nat) :
    fatVal (set_next_cluster d c FAT_EOC) c = FAT_EOC := by
  rw [fatVal_set_next_self]
  rfl

theorem fatVal_set_next_small (d : Disk) (c v : Nat) (hv : v < 2 ^ 32) :
    fatVal (set_next_cluster d c v) c = v := by
  rw [fatVal_set_next_self]
  exact Nat.mod_eq_of_lt hv

theorem clustersFor_pos (csz : Nat) : 1 ≤ clustersFor csz := by
  unfold clustersFor
  omega

theorem clustersFor_zero : clustersFor 0 = 1 := rfl

theorem clustersFor_start_lt (csz i : Nat) (hpos : 0 < csz) (hi : i < clustersFor csz) :
    i * CLUSTER_SIZE < csz := by
  unfold clustersFor at hi
  rw [CLUSTER_SIZE_eq] at *
  omega

theorem loop_chunk_eq (payload : List Nat) (idx : Nat) :
    (payload.drop (idx * CLUSTER_SIZE)).take
        (min (idx * CLUSTER_SIZE + CLUSTER_SIZE) payload.length - idx * CLUSTER_SIZE)
      = (payload.drop (CLUSTER_SIZE * idx)).take CLUSTER_SIZE := by
  rw [Nat.mul_comm idx CLUSTER_SIZE]
  rw [List.take_eq_take]
  rw [List.length_drop]
  omega

theorem chunk_length_le (payload : List Nat) (idx : Nat) :
    ((payload.drop (CLUSTER_SIZE * idx)).take CLUSTER_SIZE).length ≤ CLUSTER_SIZE := by
  rw [List.length_take]
  omega

theorem clusterOfChunk_eq_padded (payload : List Nat) (idx : Nat) :
    clusterOfChunk payload idx
      = (payload.drop (CLUSTER_SIZE * idx)).take CLUSTER_SIZE ++
        List.replicate (CLUSTER_SIZE -
          ((payload.drop (CLUSTER_SIZE * idx)).take CLUSTER_SIZE).length) 0 := rfl

theorem writeChunks_ok (payload : List Nat) (a k : Nat)
    (ha : 2 ≤ a) (hk : k = clustersFor payload.length) (hfit : a + k ≤ 1024)
    (d : Disk) (hlo : ∀ j, 2 ≤ j → j < a → fatVal d j ≠ 0) :
    ∀ (r : Nat) (i : Nat) (di : Disk), i + r + 1 = k →
    (∀ j, j < a → fatVal di j = fatVal d j) →
    (∀ j, j < i → fatVal di (a + j) = a + j + 1) →
    fatVal di (a + i) = FAT_EOC →
    (∀ j, a + i < j → j < 1024 → fatVal di j = 0) →
    (∀ t, t < 32 → slotBytes di t = slotBytes d t) →
    dirByte di 0 = dirByte d 0 →
    (∀ j, j < i → clusterBytes di (a + j) = clusterOfChunk payload j) →
    (∀ c, 2 ≤ c → c < a → clusterBytes di c = clusterBytes d c) →
    (∀ c, a + i ≤ c → clusterBytes di c = clusterBytes d c) →
    ∃ W, writeChunksLoop payload payload.length k (List.range' i (k - i)) (a + i) di
        = .ok (a + (k - 1), W) ∧
      (∀ j, j < a → fatVal W j = fatVal d j) ∧
      (∀ j, j + 1 < k → fatVal W (a + j) = a + j + 1) ∧
      fatVal W (a + (k - 1)) = FAT_EOC ∧
      (∀ j, a + k ≤ j → j < 1024 → fatVal W j = 0) ∧
      (∀ t, t < 32 → slotBytes W t = slotBytes d t) ∧
      dirByte W 0 = dirByte d 0 ∧
      (0 < payload.length → ∀ j, j < k → clusterBytes W (a + j) = clusterOfChunk payload j) ∧
      (payload.length = 0 → clusterBytes W a = clusterBytes d a) ∧
      (∀ c, 2 ≤ c → c < a → clusterBytes W c = clusterBytes d c) ∧
      (∀ c, a + k ≤ c → clusterBytes W c = clusterBytes d c) := by
  intro r
  induction r with
  | zero =>
    intro i di hik hF1 hF2 hF3 hF4 hS hD hC1 hC2 hC3
    have hi : i = k - 1 := by omega
    rw [show k - i = 1 by omega]
    rw [show List.range' i 1 = [i] from rfl]
    by_cases hcsz : 0 < payload.length
    · have hstart : i * CLUSTER_SIZE < payload.length :=
        clustersFor_start_lt payload.length i hcsz (by omega)
      simp only [writeChunksLoop]
      rw [if_pos hstart, if_pos hstart, if_pos (Nat.min_le_right _ _)]
      rw [loop_chunk_eq]
      rw [write_cluster_ok di (a + i) _ (by omega) (chunk_length_le payload i)]
      simp only []
      rw [if_neg (show ¬ i < k - 1 by omega)]
      refine ⟨writeBytes di (DATA_START_SECTOR * SECTOR_SIZE + (a + i - 2) * CLUSTER_SIZE)
        ((payload.drop (CLUSTER_SIZE * i)).take CLUSTER_SIZE ++
          List.replicate (CLUSTER_SIZE -
            ((payload.drop (CLUSTER_SIZE * i)).take CLUSTER_SIZE).length) 0),
        ?_, ?_, ?_, ?_, ?_, ?_, ?_, ?_, ?_, ?_, ?_⟩
      · rw [show a + (k - 1) = a + i by omega]
      · intro j hj
        rw [fatVal_write_data _ _ _ _ (by omega)]
        exact hF1 j hj
      · intro j hj
        rw [fatVal_write_data _ _ _ _ (by omega)]
        exact hF2 j (by omega)
      · rw [show k - 1 = i by omega]
        rw [fatVal_write_data _ _ _ _ (by omega)]
        exact hF3
      · intro j hj1 hj2
        rw [fatVal_write_data _ _ _ _ hj2]
        exact hF4 j (by omega) hj2
      · intro t ht
        rw [slotBytes_write_data _ _ _ _ ht]
        exact hS t ht
      · rw [dirByte_write_data _ _ _ _ (by omega)]
        exact hD
      · intro hpos j hj
        rcases Nat.lt_or_ge j i with hji | hji
        · rw [clusterBytes_write_data_ne _ _ _ _
            (padded_length _ (chunk_length_le payload i)) (by omega) (by omega) (by omega)]
          exact hC1 j hji
        · have hj_eq : j = i := by omega
          rw [hj_eq]
          rw [clusterBytes_write_data_self _ _ _
            (padded_length _ (chunk_length_le payload i))]
          rw [clusterOfChunk_eq_padded]
      · intro h0
        omega
      · intro c hc2 hca
        rw [clusterBytes_write_data_ne _ _ _ _
          (padded_length _ (chunk_length_le payload i)) (by omega) hc2 (by omega)]
        exact hC2 c hc2 hca
      · intro c hc
        rw [clusterBytes_write_data_ne _ _ _ _
          (padded_length _ (chunk_length_le payload i)) (by omega) (by omega) (by omega)]
        exact hC3 c (by omega)
    · have hlen : payload.length = 0 := by omega
      have hk1 : k = 1 := by rw [hk, hlen, clustersFor_zero]
      have hi0 : i = 0 := by omega
      simp only [writeChunksLoop]
      rw [if_neg (by omega)]
      refine ⟨di, ?_, ?_, ?_, ?_, ?_, ?_, ?_, ?_, ?_, ?_, ?_⟩
      · rw [show a + (k - 1) = a + i by omega]
      · exact hF1
      · intro j hj; omega
      · rw [show k - 1 = i by omega]; exact hF3
      · intro j hj1 hj2; exact hF4 j (by omega) hj2
      · exact hS
      · exact hD
      · intro hpos; omega
      · intro _; exact hC3 a (by omega)
      · exact hC2
      · intro c hc; exact hC3 c (by omega)
  | succ r ih =>
    intro i di hik hF1 hF2 hF3 hF4 hS hD hC1 hC2 hC3
    have hlt : i + 1 < k := by omega
    have hcszpos : 0 < payload.length := by
      by_contra h0
      have hz : payload.length = 0 := by omega
      rw [hz, clustersFor_zero] at hk
      omega
    have hstart : i * CLUSTER_SIZE < payload.length :=
      clustersFor_start_lt payload.length i hcszpos (by omega)
    rw [show k - i = (k - i - 1) + 1 by omega]
    rw [List.range'_succ]
    simp only [writeChunksLoop]
    rw [if_pos hstart, if_pos hstart, if_pos (Nat.min_le_right _ _)]
    rw [loop_chunk_eq]
    rw [write_cluster_ok di (a + i) _ (by omega) (chunk_length_le payload i)]
    simp only []
    rw [if_pos (show i < k - 1 by omega)]
    have hplen := padded_length ((payload.drop (CLUSTER_SIZE * i)).take CLUSTER_SIZE)
      (chunk_length_le payload i)
    have hfree : fatVal (writeBytes di
        (DATA_START_SECTOR * SECTOR_SIZE + (a + i - 2) * CLUSTER_SIZE)
        ((payload.drop (CLUSTER_SIZE * i)).take CLUSTER_SIZE ++
          List.replicate (CLUSTER_SIZE -
            ((payload.drop (CLUSTER_SIZE * i)).take CLUSTER_SIZE).length) 0)) (a + i + 1)
        = FAT_FREE := by
      rw [fatVal_write_data _ _ _ _ (by omega)]
      exact hF4 (a + i + 1) (by omega) (by omega)
    have hbefore : ∀ j, 2 ≤ j → j < a + i + 1 → fatVal (writeBytes di
        (DATA_START_SECTOR * SECTOR_SIZE + (a + i - 2) * CLUSTER_SIZE)
        ((payload.drop (CLUSTER_SIZE * i)).take CLUSTER_SIZE ++
          List.replicate (CLUSTER_SIZE -
            ((payload.drop (CLUSTER_SIZE * i)).take CLUSTER_SIZE).length) 0)) j ≠ FAT_FREE := by
      intro j hj2 hjlt
      rw [fatVal_write_data _ _ _ _ (by omega)]
      rcases Nat.lt_or_ge j a with hja | hja
      · rw [hF1 j hja]
        exact hlo j hj2 hja
      · rcases Nat.lt_or_ge j (a + i) with hji | hji
        · rw [show j = a + (j - a) by omega, hF2 (j - a) (by omega)]
          rw [FAT_FREE_eq]
          omega
        · rw [show j = a + i by omega, hF3]
          rw [FAT_FREE_eq, FAT_EOC_eq]
          omega
    rw [allocate_cluster_found _ (a + i + 1) (by omega) (by omega) hfree hbefore]
    simp only []
    have hres := ih (i + 1)
      (set_next_cluster (set_next_cluster (writeBytes di
        (DATA_START_SECTOR * SECTOR_SIZE + (a + i - 2) * CLUSTER_SIZE)
        ((payload.drop (CLUSTER_SIZE * i)).take CLUSTER_SIZE ++
          List.replicate (CLUSTER_SIZE -
            ((payload.drop (CLUSTER_SIZE * i)).take CLUSTER_SIZE).length) 0))
        (a + i + 1) FAT_EOC) (a + i) (a + i + 1))
      (by omega)
      (by
        intro j hj
        rw [fatVal_set_next_ne _ _ _ _ (by omega), fatVal_set_next_ne _ _ _ _ (by omega)]
        rw [fatVal_write_data _ _ _ _ (by omega)]
        exact hF1 j hj)
      (by
        intro j hj
        rcases Nat.lt_or_ge j i with hji | hji
        · rw [fatVal_set_next_ne _ _ _ _ (by omega), fatVal_set_next_ne _ _ _ _ (by omega)]
          rw [fatVal_write_data _ _ _ _ (by omega)]
          exact hF2 j hji
        · have hj_eq : j = i := by omega
          rw [hj_eq, fatVal_set_next_small _ _ _ (by omega)]
      )
      (by
        rw [show a + (i + 1) = a + i + 1 by omega]
        rw [fatVal_set_next_ne _ _ _ _ (by omega)]
        exact fatVal_set_next_EOC _ _)
      (by
        intro j hj1 hj2
        rw [fatVal_set_next_ne _ _ _ _ (by omega), fatVal_set_next_ne _ _ _ _ (by omega)]
        rw [fatVal_write_data _ _ _ _ hj2]
        exact hF4 j (by omega) hj2)
      (by
        intro t ht
        rw [slotBytes_set_next _ _ _ _ (by omega), slotBytes_set_next _ _ _ _ (by omega)]
        rw [slotBytes_write_data _ _ _ _ ht]
        exact hS t ht)
      (by
        rw [dirByte_set_next _ _ _ _ (by omega), dirByte_set_next _ _ _ _ (by omega)]
        rw [dirByte_write_data _ _ _ _ (by omega)]
        exact hD)
      (by
        intro j hj
        rw [clusterBytes_set_next _ _ _ _ (by omega), clusterBytes_set_next _ _ _ _ (by omega)]
        rcases Nat.lt_or_ge j i with hji | hji
        · rw [clusterBytes_write_data_ne _ _ _ _ hplen (by omega) (by omega) (by omega)]
          exact hC1 j hji
        · have hj_eq : j = i := by omega
          rw [hj_eq]
          rw [clusterBytes_write_data_self _ _ _ hplen]
          rw [clusterOfChunk_eq_padded])
      (by
        intro c hc2 hca
        rw [clusterBytes_set_next _ _ _ _ (by omega), clusterBytes_set_next _ _ _ _ (by omega)]
        rw [clusterBytes_write_data_ne _ _ _ _ hplen (by omega) hc2 (by omega)]
        exact hC2 c hc2 hca)
      (by
        intro c hc
        rw [clusterBytes_set_next _ _ _ _ (by omega), clusterBytes_set_next _ _ _ _ (by omega)]
        rw [clusterBytes_write_data_ne _ _ _ _ hplen (by omega) (by omega) (by omega)]
        exact hC3 c (by omega))
    obtain ⟨W, hW, hrest⟩ := hres
    refine ⟨W, ?_, hrest⟩
    rw [show a + i + 1 = a + (i + 1) by omega]
    rw [show k - i - 1 = k - (i + 1) by omega]
    exact hW

set_option maxRecDepth 8000 in
set_option maxHeartbeats 1600000 in
theorem write_file_eq (defl : List Nat → List Nat) (d : Disk) (name data : List Nat) (m : Nat)
    (hm : m = 0 ∨ m = 1 ∨ m = 2) :
    write_file defl d name data (some m) =
      (match (match find_file d name with
        | .ok (some _) => delete_file d name
        | _ => .ok d) with
      | .error e => .error e
      | .ok d2 =>
        match allocate_cluster d2 with
        | .error e => .error e
        | .ok (first_cluster, d3) =>
          match writeChunksLoop (payloadFor defl m data) (payloadFor defl m data).length
              (clustersFor (payloadFor defl m data).length)
              (List.range (clustersFor (payloadFor defl m data).length)) first_cluster d3 with
          | .error e => .error e
          | .ok (current, d4) =>
            write_directory_entry (set_next_cluster d4 current FAT_EOC)
              (FileEntry.new name (data.length % 2 ^ 32)
                ((payloadFor defl m data).length % 2 ^ 32) first_cluster m)) := by
  rcases hm with rfl | rfl | rfl <;> rfl

theorem write_file_ok (defl : List Nat → List Nat) (d : Disk) (a : Nat) (hWS : WState d a)
    (name data : List Nat) (m : Nat) (hm : m = 0 ∨ m = 1 ∨ m = 2)
    (hfit : a + clustersFor (payloadFor defl m data).length ≤ 1024) :
    ∃ W, write_file defl d name data (some m) = .ok W ∧
      WriteOut d W a (clustersFor (payloadFor defl m data).length) (payloadFor defl m data)
        name data.length m := by
  obtain ⟨hlo, hhi, hslot0, hrest, hlb, hub⟩ := hWS
  have hkpos := clustersFor_pos (payloadFor defl m data).length
  have ha_lt : a < 1024 := by omega
  rw [write_file_eq defl d name data m hm]
  rw [find_file_none_of_rest_zero d name hslot0 hrest]
  simp only []
  rw [allocate_cluster_found d a hlb ha_lt (hhi a (le_refl a) ha_lt)
    (fun j h2 hj => hlo j h2 hj)]
  simp only []
  rw [List.range_eq_range']
  have hloop := writeChunks_ok (payloadFor defl m data) a
    (clustersFor (payloadFor defl m data).length) hlb rfl hfit d hlo
    (clustersFor (payloadFor defl m data).length - 1) 0 (set_next_cluster d a FAT_EOC)
    (by omega)
    (fun j hj => fatVal_set_next_ne d a FAT_EOC j (by omega))
    (fun j hj => by omega)
    (by rw [Nat.add_zero]; exact fatVal_set_next_EOC d a)
    (fun j hj1 hj2 => by
      rw [fatVal_set_next_ne d a FAT_EOC j (by omega)]
      exact hhi j (by omega) hj2)
    (fun t ht => slotBytes_set_next d a FAT_EOC t ha_lt)
    (dirByte_set_next d a FAT_EOC 0 ha_lt)
    (fun j hj => by omega)
    (fun c hc2 hca => clusterBytes_set_next d a FAT_EOC c ha_lt)
    (fun c hc => clusterBytes_set_next d a FAT_EOC c ha_lt)
  obtain ⟨W0, hW0, hF1, hF2, hF3, hF4, hS, hD, hCp, hCn, hClo, hChi⟩ := hloop
  rw [Nat.sub_zero, Nat.add_zero] at hW0
  rw [hW0]
  simp only []
  have hd5slot0 : dirByte (set_next_cluster W0
      (a + (clustersFor (payloadFor defl m data).length - 1)) FAT_EOC) 0 = 0 := by
    rw [dirByte_set_next _ _ _ _ (by omega)]
    rw [hD]
    exact hslot0
  rw [write_directory_entry_ok _ _ 0 (chooseSlot_zero_of_slot0 _ _ hd5slot0)]
  refine ⟨_, rfl, ?_, ?_, ?_, ?_, ?_, ?_, ?_, ?_, ?_, ?_⟩
  · have h := slotBytes_after_write_directory_entry
      (set_next_cluster W0 (a + (clustersFor (payloadFor defl m data).length - 1)) FAT_EOC)
      (FileEntry.new name (data.length % 2 ^ 32) ((payloadFor defl m data).length % 2 ^ 32) a m)
      0 0 (by omega) (by omega)
    rw [h, if_pos rfl]
  · intro i h1 hi
    have h := slotBytes_after_write_directory_entry
      (set_next_cluster W0 (a + (clustersFor (payloadFor defl m data).length - 1)) FAT_EOC)
      (FileEntry.new name (data.length % 2 ^ 32) ((payloadFor defl m data).length % 2 ^ 32) a m)
      0 i (by omega) hi
    rw [h, if_neg (by omega)]
    rw [slotBytes_set_next _ _ _ _ (by omega)]
    exact hS i hi
  · intro j hj
    rw [fatVal_writeDir _ _ _ (spliced_length _ _ _ (readRootDir_length _)
      (to_bytes_length _) (by omega)) (by omega)]
    rw [fatVal_set_next_ne _ _ _ _ (by omega)]
    exact hF1 j hj
  · intro j hj
    rw [fatVal_writeDir _ _ _ (spliced_length _ _ _ (readRootDir_length _)
      (to_bytes_length _) (by omega)) (by omega)]
    rw [fatVal_set_next_ne _ _ _ _ (by omega)]
    exact hF2 j hj
  · rw [fatVal_writeDir _ _ _ (spliced_length _ _ _ (readRootDir_length _)
      (to_bytes_length _) (by omega)) (by omega)]
    exact fatVal_set_next_EOC _ _
  · intro j hj1 hj2
    rw [fatVal_writeDir _ _ _ (spliced_length _ _ _ (readRootDir_length _)
      (to_bytes_length _) (by omega)) hj2]
    rw [fatVal_set_next_ne _ _ _ _ (by omega)]
    rw [hF4 j hj1 hj2]
    exact (hhi j (by omega) hj2).symm
  · intro hpne j hj
    rw [clusterBytes_writeDir _ _ _ (spliced_length _ _ _ (readRootDir_length _)
      (to_bytes_length _) (by omega))]
    rw [clusterBytes_set_next _ _ _ _ (by omega)]
    exact hCp (List.length_pos.mpr hpne) j hj
  · intro hpnil
    rw [clusterBytes_writeDir _ _ _ (spliced_length _ _ _ (readRootDir_length _)
      (to_bytes_length _) (by omega))]
    rw [clusterBytes_set_next _ _ _ _ (by omega)]
    have h0 : (payloadFor defl m data).length = 0 := by rw [hpnil]; rfl
    rw [hCn h0]
  · intro c hc2 hca
    rw [clusterBytes_writeDir _ _ _ (spliced_length _ _ _ (readRootDir_length _)
      (to_bytes_length _) (by omega))]
    rw [clusterBytes_set_next _ _ _ _ (by omega)]
    rw [hClo c hc2 hca]
  · intro c hc
    rw [clusterBytes_writeDir _ _ _ (spliced_length _ _ _ (readRootDir_length _)
      (to_bytes_length _) (by omega))]
    rw [clusterBytes_set_next _ _ _ _ (by omega)]
    rw [hChi c hc]

/-! ### Reading back a written file -/

theorem clusterOfChunk_length (payload : List Nat) (j : Nat) :
    (clusterOfChunk payload j).length = CLUSTER_SIZE := by
  rw [clusterOfChunk_eq_padded]
  exact padded_length _ (chunk_length_le payload j)

theorem clustersFor_ge (csz : Nat) : csz ≤ CLUSTER_SIZE * clustersFor csz := by
  unfold clustersFor
  rw [CLUSTER_SIZE_eq]
  omega

theorem readChainLoop_succ (d : Disk) (csz fuel current : Nat) (acc : List Nat) :
    readChainLoop d csz (fuel + 1) current acc =
      (if current ≠ FAT_EOC ∧ 2 ≤ current then
        match read_cluster d current with
        | .error e => .error e
        | .ok cdata =>
          if csz ≤ (acc ++ cdata.take (min (csz - acc.length) cdata.length)).length then
            .ok (acc ++ cdata.take (min (csz - acc.length) cdata.length))
          else
            match get_next_cluster d current with
            | .error e => .error e
            | .ok next =>
              readChainLoop d csz fuel next (acc ++ cdata.take (min (csz - acc.length) cdata.length))
      else .ok acc) := rfl

theorem take_chunk_of_cluster (payload : List Nat) (i : Nat)
    (hlt : i * CLUSTER_SIZE < payload.length) :
    (clusterOfChunk payload i).take
        (min (payload.length - (payload.take (i * CLUSTER_SIZE)).length)
          (clusterOfChunk payload i).length)
      = (payload.drop (CLUSTER_SIZE * i)).take CLUSTER_SIZE := by
  rw [clusterOfChunk_length, clusterOfChunk_eq_padded]
  rw [Nat.mul_comm CLUSTER_SIZE i]
  rw [List.length_take]
  have hchunklen : ((payload.drop (i * CLUSTER_SIZE)).take CLUSTER_SIZE).length
      = min CLUSTER_SIZE (payload.length - i * CLUSTER_SIZE) := by
    rw [List.length_take, List.length_drop]
  have hmin : min (payload.length - min (i * CLUSTER_SIZE) payload.length) CLUSTER_SIZE
      = ((payload.drop (i * CLUSTER_SIZE)).take CLUSTER_SIZE).length := by
    rw [hchunklen]
    omega
  rw [hmin]
  rw [List.take_append_of_le_length (le_refl _)]
  rw [List.take_length]

theorem readChain_ok (payload : List Nat) (a k : Nat) (R : Disk)
    (ha : 2 ≤ a) (hk : k = clustersFor payload.length) (hfit : a + k ≤ 1024)
    (hchain : ∀ j, j + 1 < k → fatVal R (a + j) = a + j + 1)
    (hclus : 0 < payload.length → ∀ j, j < k → clusterBytes R (a + j) = clusterOfChunk payload j) :
    ∀ (r i fuel : Nat), i + r + 1 = k → k - i ≤ fuel →
    readChainLoop R payload.length fuel (a + i) (payload.take (i * CLUSTER_SIZE))
      = .ok payload := by
  intro r
  induction r with
  | zero =>
    intro i fuel hik hfuel
    obtain ⟨f, rfl⟩ : ∃ f, fuel = f + 1 := ⟨fuel - 1, by omega⟩
    rw [readChainLoop_succ]
    rw [if_pos ⟨by rw [FAT_EOC_eq]; omega, by omega⟩]
    rw [read_cluster_eq R (a + i) (by omega) (by omega)]
    simp only []
    by_cases hcsz : 0 < payload.length
    · have hstart : i * CLUSTER_SIZE < payload.length := by
        rw [hk] at hik
        exact clustersFor_start_lt _ _ hcsz (by omega)
      rw [hclus hcsz i (by omega)]
      rw [take_chunk_of_cluster payload i hstart]
      rw [Nat.mul_comm CLUSTER_SIZE i]
      rw [← List.take_add]
      have hfull : payload.length ≤ i * CLUSTER_SIZE + CLUSTER_SIZE := by
        have := clustersFor_ge payload.length
        rw [← hk] at this
        have hik2 : i + 1 = k := by omega
        rw [CLUSTER_SIZE_eq] at *
        omega
      rw [List.take_of_length_le (by omega)]
      rw [if_pos (le_refl _)]
    · have hlen : payload.length = 0 := by omega
      have hpnil : payload = [] := List.length_eq_zero.mp hlen
      rw [hpnil]
      simp
  | succ r ih =>
    intro i fuel hik hfuel
    obtain ⟨f, rfl⟩ : ∃ f, fuel = f + 1 := ⟨fuel - 1, by omega⟩
    rw [readChainLoop_succ]
    rw [if_pos ⟨by rw [FAT_EOC_eq]; omega, by omega⟩]
    rw [read_cluster_eq R (a + i) (by omega) (by omega)]
    simp only []
    have hcsz : 0 < payload.length := by
      by_contra h0
      have hz : payload.length = 0 := by omega
      rw [hz, clustersFor_zero] at hk
      omega
    have hstart : i * CLUSTER_SIZE < payload.length :=
      clustersFor_start_lt _ _ hcsz (by omega)
    rw [hclus hcsz i (by omega)]
    rw [take_chunk_of_cluster payload i hstart]
    rw [Nat.mul_comm CLUSTER_SIZE i]
    rw [← List.take_add]
    have hnotfull : i * CLUSTER_SIZE + CLUSTER_SIZE < payload.length := by
      have h1 : (i + 1) * CLUSTER_SIZE < payload.length :=
        clustersFor_start_lt payload.length (i + 1) hcsz (by omega)
      rw [CLUSTER_SIZE_eq] at *
      omega
    rw [if_neg (by
      rw [List.length_take]
      omega)]
    rw [get_next_cluster_eq R (a + i) (by omega)]
    rw [hchain i (by omega)]
    simp only []
    have hres := ih (i + 1) f (by omega) (by omega)
    rw [show a + i + 1 = a + (i + 1) by omega]
    rw [show i * CLUSTER_SIZE + CLUSTER_SIZE = (i + 1) * CLUSTER_SIZE by ring]
    exact hres

theorem from_bytes_new (name : List Nat) (osz csz a m : Nat) (hn : name.length ≤ 32)
    (hnz : ∀ b ∈ name, b ≠ 0) (ha32 : a < 2 ^ 32) (hm256 : m < 256) :
    FileEntry.from_bytes (FileEntry.new name (osz % 2 ^ 32) (csz % 2 ^ 32) a m).to_bytes
      = some { name := name, size := osz % 2 ^ 32, compressed_size := csz % 2 ^ 32,
               first_cluster := a, is_deleted := false,
               is_compressed := decide (0 < m), compression_method := m } := by
  rw [from_bytes_to_bytes _ hn hnz]
  simp [FileEntry.new, mod_mod_32, Nat.mod_eq_of_lt ha32, Nat.mod_eq_of_lt hm256]
  omega

theorem find_file_single_entry (W : Disk) (e : FileEntry) (dec : FileEntry)
    (hslot0 : slotBytes W 0 = e.to_bytes)
    (hrest : ∀ i, 1 ≤ i → i < 32 → slotBytes W i = List.replicate 64 0)
    (hdec : FileEntry.from_bytes e.to_bytes = some dec)
    (hb0 : e.to_bytes.getD 0 0 ≠ 0)
    (hlive : dec.is_deleted = false) :
    ∀ (q : List Nat), dec.name = q →
    find_file W q = .ok (some dec) := by
  intro q hq
  rw [find_file_eq, slotsList_of_rest_zero W hrest, hslot0]
  rw [entriesOfSlots_cons, if_pos hb0, hdec]
  simp only [hlive]
  rw [entriesOfSlots_replicate_zero]
  simp only [if_neg, Bool.false_eq_true, reduceIte, List.append_nil, List.find?_cons]
  rw [← hq]
  simp [hlive]

theorem clustersFor_le_fuel (csz : Nat) : clustersFor csz ≤ csz / CLUSTER_SIZE + 2 := by
  unfold clustersFor
  rw [CLUSTER_SIZE_eq]
  omega

theorem read_file_after_write (infl : List Nat → Option (List Nat))
    (defl : List Nat → List Nat) (d W : Disk) (a m : Nat) (name data : List Nat)
    (hout : WriteOut d W a (clustersFor (payloadFor defl m data).length)
      (payloadFor defl m data) name data.length m)
    (hrestd : ∀ i, 1 ≤ i → i < 32 → slotBytes d i = List.replicate 64 0)
    (ha : 2 ≤ a)
    (hfit : a + clustersFor (payloadFor defl m data).length ≤ 1024)
    (hnlen : name.length ≤ 32) (hnnz : ∀ b ∈ name, b ≠ 0) (hnne : name ≠ [])
    (hosz : data.length < 2 ^ 32)
    (hm : m = 0 ∨ m = 1 ∨ m = 2)
    (hinfl : infl (defl data) = some data) :
    read_file infl W name = .ok data := by
  have hkpos := clustersFor_pos (payloadFor defl m data).length
  have hcsz32 : (payloadFor defl m data).length < 2 ^ 32 := by
    have h1 := clustersFor_ge (payloadFor defl m data).length
    rw [CLUSTER_SIZE_eq] at h1
    omega
  have hm256 : m < 256 := by rcases hm with rfl | rfl | rfl <;> omega
  have hdec := from_bytes_new name data.length (payloadFor defl m data).length a m
    hnlen hnnz (by omega) hm256
  have hb0 : (FileEntry.new name (data.length % 2 ^ 32)
      ((payloadFor defl m data).length % 2 ^ 32) a m).to_bytes.getD 0 0 ≠ 0 := by
    rw [to_bytes_getD_0]
    cases name with
    | nil => exact absurd rfl hnne
    | cons b rest =>
      simp only [FileEntry.new, List.headD]
      exact hnnz b (List.mem_cons_self b rest)
  have hfind := find_file_single_entry W _ _ hout.slot0
    (fun i h1 hi => by rw [hout.slot_rest i h1 hi]; exact hrestd i h1 hi)
    hdec hb0 rfl name rfl
  unfold read_file
  rw [hfind]
  simp only []
  have hgather : gatherFile W
      { name := name, size := data.length % 2 ^ 32,
        compressed_size := (payloadFor defl m data).length % 2 ^ 32,
        first_cluster := a, is_deleted := false,
        is_compressed := decide (0 < m), compression_method := m }
      = .ok (payloadFor defl m data) := by
    unfold gatherFile
    simp only [Nat.mod_eq_of_lt hcsz32]
    have hrc := readChain_ok (payloadFor defl m data) a
      (clustersFor (payloadFor defl m data).length) W ha rfl hfit hout.fat_chain
      (fun hpos j hj => hout.clus (by
        intro hcon
        rw [hcon] at hpos
        simp at hpos) j hj)
      (clustersFor (payloadFor defl m data).length - 1) 0
      ((payloadFor defl m data).length / CLUSTER_SIZE + 2) (by omega)
      (by have := clustersFor_le_fuel (payloadFor defl m data).length; omega)
    exact hrc
  rw [hgather]
  simp only []
  rcases hm with rfl | rfl | rfl
  · simp [payloadFor]
  · simp only [payloadFor]
    simp [rle_roundtrip data, Nat.mod_eq_of_lt hosz] <;> omega
  · simp only [payloadFor]
    simp [hinfl, Nat.mod_eq_of_lt hosz] <;> omega

/-! ### Observations across unrelated byte writes -/

theorem fatVal_writeBytes_disj (d : Disk) (off : Nat) (bs : List Nat) (c : Nat)
    (h : FAT_START_SECTOR * SECTOR_SIZE + c * 4 + 4 ≤ off ∨
      off + bs.length ≤ FAT_START_SECTOR * SECTOR_SIZE + c * 4) :
    fatVal (writeBytes d off bs) c = fatVal d c := by
  unfold fatVal
  rw [readBytes_writeBytes_disj d bs (by omega)]

theorem slotBytes_writeBytes_disj (d : Disk) (off : Nat) (bs : List Nat) (i : Nat)
    (h : ROOT_DIR_START_SECTOR * SECTOR_SIZE + i * DIR_ENTRY_SIZE + DIR_ENTRY_SIZE ≤ off ∨
      off + bs.length ≤ ROOT_DIR_START_SECTOR * SECTOR_SIZE + i * DIR_ENTRY_SIZE) :
    slotBytes (writeBytes d off bs) i = slotBytes d i := by
  unfold slotBytes
  rw [readBytes_writeBytes_disj d bs (by simp only [DIR_ENTRY_SIZE_eq] at h ⊢; omega)]

theorem clusterBytes_writeBytes_disj (d : Disk) (off : Nat) (bs : List Nat) (c : Nat)
    (h : DATA_START_SECTOR * SECTOR_SIZE + (c - 2) * CLUSTER_SIZE + CLUSTER_SIZE ≤ off ∨
      off + bs.length ≤ DATA_START_SECTOR * SECTOR_SIZE + (c - 2) * CLUSTER_SIZE) :
    clusterBytes (writeBytes d off bs) c = clusterBytes d c := by
  unfold clusterBytes
  rw [readBytes_writeBytes_disj d bs (by omega)]

theorem readBytes_write_one (d : Disk) (off n p v : Nat) (h1 : off ≤ p) (h2 : p < off + n) :
    readBytes (writeBytes d p [v]) off n = (readBytes d off n).set (p - off) v := by
  apply List.ext_getElem?
  intro i
  by_cases hi : i < n
  · rw [readBytes_getElem? _ _ _ _ hi]
    by_cases hip : i = p - off
    · rw [hip, List.getElem?_set_self (by rw [readBytes_length]; omega)]
      rw [writeBytes_in d [v] (by omega) (by simp only [List.length_cons, List.length_nil]; omega)]
      simp only [List.getD]
      rw [show off + (p - off) - p = 0 from by omega]
      rfl
    · rw [List.getElem?_set_ne (by omega)]
      rw [readBytes_getElem? _ _ _ _ hi]
      rw [writeBytes_out d [v] (by simp only [List.length_cons, List.length_nil]; omega)]
  · have hl1 : (readBytes (writeBytes d p [v]) off n).length ≤ i := by rw [readBytes_length]; omega
    have hl2 : ((readBytes d off n).set (p - off) v).length ≤ i := by
      rw [List.length_set, readBytes_length]; omega
    rw [List.getElem?_eq_none hl1, List.getElem?_eq_none hl2]

/-! ### Slot predicates and directory scans on occupied volumes -/

theorem slotPred_zero (e : FileEntry) : slotPred (List.replicate 64 0) e = true := by
  unfold slotPred
  rw [getD_replicate_zero]
  rfl

theorem find?_slot0 (d : Disk) (e : FileEntry)
    (h0 : slotPred (slotBytes d 0) e = true) :
    (List.range 32).find? (fun t => slotPred (slotBytes d t) e) = some 0 := by
  rw [show List.range 32 = 0 :: List.range' 1 31 from by decide]
  exact List.find?_cons_of_pos _ h0

theorem find?_slot1 (d : Disk) (e : FileEntry)
    (h0 : slotPred (slotBytes d 0) e = false)
    (h1 : slotPred (slotBytes d 1) e = true) :
    (List.range 32).find? (fun t => slotPred (slotBytes d t) e) = some 1 := by
  rw [show List.range 32 = 0 :: 1 :: List.range' 2 30 from by decide]
  rw [List.find?_cons_of_neg _ (by simp only [h0]; exact Bool.false_ne_true)]
  exact List.find?_cons_of_pos _ h1

theorem slotsList_two (d : Disk)
    (hrest : ∀ i, 2 ≤ i → i < 32 → slotBytes d i = List.replicate 64 0) :
    slotsList d = slotBytes d 0 :: slotBytes d 1 :: List.replicate 30 (List.replicate 64 0) := by
  unfold slotsList
  rw [show List.range 32 = 0 :: 1 :: List.range' 2 30 from by decide]
  rw [List.map_cons, List.map_cons]
  have h := map_eq_replicate_of (List.range' 2 30) (fun i => slotBytes d i)
    (List.replicate 64 0) (fun x hx => by
      rw [List.mem_range'_1] at hx
      exact hrest x hx.1 (by omega))
  rw [h, List.length_range']

theorem entries_one (d : Disk)
    (hrest : ∀ i, 1 ≤ i → i < 32 → slotBytes d i = List.replicate 64 0) :
    entriesOfSlots (slotsList d) = entriesOfSlots [slotBytes d 0] := by
  rw [slotsList_of_rest_zero d hrest]
  rw [show slotBytes d 0 :: List.replicate 31 (List.replicate 64 0)
    = [slotBytes d 0] ++ List.replicate 31 (List.replicate 64 0) from rfl]
  rw [entriesOfSlots_append, entriesOfSlots_replicate_zero, List.append_nil]

theorem entries_two (d : Disk)
    (hrest : ∀ i, 2 ≤ i → i < 32 → slotBytes d i = List.replicate 64 0) :
    entriesOfSlots (slotsList d) = entriesOfSlots [slotBytes d 0, slotBytes d 1] := by
  rw [slotsList_two d hrest]
  rw [show slotBytes d 0 :: slotBytes d 1 :: List.replicate 30 (List.replicate 64 0)
    = [slotBytes d 0, slotBytes d 1] ++ List.replicate 30 (List.replicate 64 0) from rfl]
  rw [entriesOfSlots_append, entriesOfSlots_replicate_zero, List.append_nil]

theorem find_file_one (d : Disk)
    (hrest : ∀ i, 1 ≤ i → i < 32 → slotBytes d i = List.replicate 64 0) (q : List Nat) :
    find_file d q = .ok ((entriesOfSlots [slotBytes d 0]).find?
      (fun e => e.name == q && !e.is_deleted)) := by
  rw [find_file_eq, entries_one d hrest]

theorem find_file_two (d : Disk)
    (hrest : ∀ i, 2 ≤ i → i < 32 → slotBytes d i = List.replicate 64 0) (q : List Nat) :
    find_file d q = .ok ((entriesOfSlots [slotBytes d 0, slotBytes d 1]).find?
      (fun e => e.name == q && !e.is_deleted)) := by
  rw [find_file_eq, entries_two d hrest]

theorem list_files_two (d : Disk)
    (hrest : ∀ i, 2 ≤ i → i < 32 → slotBytes d i = List.replicate 64 0) :
    list_files d = .ok (entriesOfSlots [slotBytes d 0, slotBytes d 1]) := by
  rw [list_files_eq, entries_two d hrest]

/-! ### Lookup-failure propagation -/

theorem read_file_notFound (infl : List Nat → Option (List Nat)) (d : Disk) (q : List Nat)
    (h : find_file d q = .ok none) : read_file infl d q = .error .notFound := by
  unfold read_file
  rw [h]

theorem delete_file_notFound (d : Disk) (q : List Nat)
    (h : find_file d q = .ok none) : delete_file d q = .error .notFound := by
  unfold delete_file
  rw [h]

theorem stats_notFound (d : Disk) (q : List Nat)
    (h : find_file d q = .ok none) : get_compression_stats d q = .error .notFound := by
  unfold get_compression_stats
  rw [h]

/-! ### The read path when the compressed flag is clear -/

theorem read_file_flag_false (infl : List Nat → Option (List Nat)) (d : Disk) (q : List Nat)
    (fe : FileEntry) (hfind : find_file d q = .ok (some fe))
    (hic : fe.is_compressed = false) :
    read_file infl d q = gatherFile d fe := by
  unfold read_file
  rw [hfind]
  simp only []
  cases hg : gatherFile d fe with
  | error e => rfl
  | ok c => simp [hic]

theorem gatherFile_single (d : Disk) (fe : FileEntry) (h2 : 2 ≤ fe.first_cluster)
    (hub : fe.first_cluster ≤ 1025) (hpos : 0 < fe.compressed_size)
    (hle : fe.compressed_size ≤ CLUSTER_SIZE) :
    gatherFile d fe = .ok ((clusterBytes d fe.first_cluster).take fe.compressed_size) := by
  unfold gatherFile
  rw [show fe.compressed_size / CLUSTER_SIZE + 2
    = (fe.compressed_size / CLUSTER_SIZE + 1) + 1 from rfl]
  rw [readChainLoop_succ]
  rw [if_pos ⟨by rw [FAT_EOC_eq]; omega, h2⟩]
  rw [read_cluster_eq d fe.first_cluster h2 hub]
  simp only [List.nil_append, List.length_nil, Nat.sub_zero]
  rw [show min fe.compressed_size (clusterBytes d fe.first_cluster).length
    = fe.compressed_size from by rw [clusterBytes_length]; omega]
  rw [if_pos (by rw [List.length_take, clusterBytes_length]; omega)]

/-! ### The write pipeline on occupied directories -/

theorem find?_slotPred_transfer (d1 d2 : Disk) (e : FileEntry)
    (h : ∀ t, t < 32 → slotBytes d1 t = slotBytes d2 t) :
    (List.range 32).find? (fun t => slotPred (slotBytes d1 t) e)
      = (List.range 32).find? (fun t => slotPred (slotBytes d2 t) e) := by
  apply find?_congr
  intro t ht
  rw [List.mem_range] at ht
  rw [h t ht]

theorem pipeline_core (payload name : List Nat) (osz m : Nat) (d2 : Disk) (a k : Nat)
    (hk : k = clustersFor payload.length)
    (hlo : ∀ j, 2 ≤ j → j < a → fatVal d2 j ≠ 0)
    (hhi : ∀ j, a ≤ j → j < 1024 → fatVal d2 j = 0)
    (hlb : 2 ≤ a) (hfit : a + k ≤ 1024) (i : Nat)
    (hchoose : (List.range 32).find? (fun t => slotPred (slotBytes d2 t)
      (FileEntry.new name (osz % 2 ^ 32) (payload.length % 2 ^ 32) a m)) = some i) :
    ∃ W d4,
      allocate_cluster d2 = .ok (a, set_next_cluster d2 a FAT_EOC) ∧
      writeChunksLoop payload payload.length k (List.range k) a (set_next_cluster d2 a FAT_EOC)
        = .ok (a + (k - 1), W) ∧
      write_directory_entry (set_next_cluster W (a + (k - 1)) FAT_EOC)
        (FileEntry.new name (osz % 2 ^ 32) (payload.length % 2 ^ 32) a m) = .ok d4 ∧
      WriteOutAt d2 d4 a k payload name osz m i := by
  have hkpos : 1 ≤ k := hk ▸ clustersFor_pos payload.length
  have ha_lt : a < 1024 := by omega
  have halloc := allocate_cluster_found d2 a hlb ha_lt (hhi a (le_refl a) ha_lt)
    (fun j h2 hj => hlo j h2 hj)
  have hloop := writeChunks_ok payload a k hlb hk hfit d2 hlo
    (k - 1) 0 (set_next_cluster d2 a FAT_EOC)
    (by omega)
    (fun j hj => fatVal_set_next_ne d2 a FAT_EOC j (by omega))
    (fun j hj => by omega)
    (by rw [Nat.add_zero]; exact fatVal_set_next_EOC d2 a)
    (fun j hj1 hj2 => by
      rw [fatVal_set_next_ne d2 a FAT_EOC j (by omega)]
      exact hhi j (by omega) hj2)
    (fun t ht => slotBytes_set_next d2 a FAT_EOC t ha_lt)
    (dirByte_set_next d2 a FAT_EOC 0 ha_lt)
    (fun j hj => by omega)
    (fun c hc2 hca => clusterBytes_set_next d2 a FAT_EOC c ha_lt)
    (fun c hc => clusterBytes_set_next d2 a FAT_EOC c ha_lt)
  obtain ⟨W0, hW0, hF1, hF2, hF3, hF4, hS, hD, hCp, hCn, hClo, hChi⟩ := hloop
  rw [Nat.sub_zero, Nat.add_zero, ← List.range_eq_range'] at hW0
  have hi32 : i < 32 := by
    have hmem := List.mem_of_find?_eq_some hchoose
    rwa [List.mem_range] at hmem
  have hcs : chooseSlot (readRootDir (set_next_cluster W0 (a + (k - 1)) FAT_EOC))
      (FileEntry.new name (osz % 2 ^ 32) (payload.length % 2 ^ 32) a m) = some i := by
    rw [chooseSlot_eq]
    rw [find?_slotPred_transfer (set_next_cluster W0 (a + (k - 1)) FAT_EOC) d2 _
      (fun t ht => by
        rw [slotBytes_set_next _ _ _ _ (by omega)]
        exact hS t ht)]
    exact hchoose
  have hwde := write_directory_entry_ok (set_next_cluster W0 (a + (k - 1)) FAT_EOC)
    (FileEntry.new name (osz % 2 ^ 32) (payload.length % 2 ^ 32) a m) i hcs
  refine ⟨W0, _, halloc, hW0, hwde, ?_, ?_, ?_, ?_, ?_, ?_, ?_, ?_, ?_, ?_⟩
  · have h := slotBytes_after_write_directory_entry
      (set_next_cluster W0 (a + (k - 1)) FAT_EOC)
      (FileEntry.new name (osz % 2 ^ 32) (payload.length % 2 ^ 32) a m) i i hi32 hi32
    rw [h, if_pos rfl]
  · intro t ht hti
    have h := slotBytes_after_write_directory_entry
      (set_next_cluster W0 (a + (k - 1)) FAT_EOC)
      (FileEntry.new name (osz % 2 ^ 32) (payload.length % 2 ^ 32) a m) i t hi32 ht
    rw [h, if_neg hti]
    rw [slotBytes_set_next _ _ _ _ (by omega)]
    exact hS t ht
  · intro j hj
    rw [fatVal_writeDir _ _ _ (spliced_length _ _ _ (readRootDir_length _)
      (to_bytes_length _) hi32) (by omega)]
    rw [fatVal_set_next_ne _ _ _ _ (by omega)]
    exact hF1 j hj
  · intro j hj
    rw [fatVal_writeDir _ _ _ (spliced_length _ _ _ (readRootDir_length _)
      (to_bytes_length _) hi32) (by omega)]
    rw [fatVal_set_next_ne _ _ _ _ (by omega)]
    exact hF2 j hj
  · rw [fatVal_writeDir _ _ _ (spliced_length _ _ _ (readRootDir_length _)
      (to_bytes_length _) hi32) (by omega)]
    exact fatVal_set_next_EOC _ _
  · intro j hj1 hj2
    rw [fatVal_writeDir _ _ _ (spliced_length _ _ _ (readRootDir_length _)
      (to_bytes_length _) hi32) hj2]
    rw [fatVal_set_next_ne _ _ _ _ (by omega)]
    rw [hF4 j hj1 hj2]
    exact (hhi j (by omega) hj2).symm
  · intro hpne j hj
    rw [clusterBytes_writeDir _ _ _ (spliced_length _ _ _ (readRootDir_length _)
      (to_bytes_length _) hi32)]
    rw [clusterBytes_set_next _ _ _ _ (by omega)]
    exact hCp (List.length_pos.mpr hpne) j hj
  · intro hpnil
    rw [clusterBytes_writeDir _ _ _ (spliced_length _ _ _ (readRootDir_length _)
      (to_bytes_length _) hi32)]
    rw [clusterBytes_set_next _ _ _ _ (by omega)]
    have h0 : payload.length = 0 := by rw [hpnil]; rfl
    rw [hCn h0]
  · intro c hc2 hca
    rw [clusterBytes_writeDir _ _ _ (spliced_length _ _ _ (readRootDir_length _)
      (to_bytes_length _) hi32)]
    rw [clusterBytes_set_next _ _ _ _ (by omega)]
    rw [hClo c hc2 hca]
  · intro c hc
    rw [clusterBytes_writeDir _ _ _ (spliced_length _ _ _ (readRootDir_length _)
      (to_bytes_length _) hi32)]
    rw [clusterBytes_set_next _ _ _ _ (by omega)]
    rw [hChi c hc]

theorem write_file_pipeline (defl : List Nat → List Nat) (d d2 : Disk) (a : Nat)
    (name data : List Nat) (m : Nat) (hm : m = 0 ∨ m = 1 ∨ m = 2)
    (hpre : (find_file d name = .ok none ∧ d2 = d) ∨
      (∃ fe, find_file d name = .ok (some fe) ∧ delete_file d name = .ok d2))
    (hlo : ∀ j, 2 ≤ j → j < a → fatVal d2 j ≠ 0)
    (hhi : ∀ j, a ≤ j → j < 1024 → fatVal d2 j = 0)
    (hlb : 2 ≤ a)
    (hfit : a + clustersFor (payloadFor defl m data).length ≤ 1024)
    (i : Nat)
    (hchoose : (List.range 32).find? (fun t => slotPred (slotBytes d2 t)
      (FileEntry.new name (data.length % 2 ^ 32)
        ((payloadFor defl m data).length % 2 ^ 32) a m)) = some i) :
    ∃ W, write_file defl d name data (some m) = .ok W ∧
      WriteOutAt d2 W a (clustersFor (payloadFor defl m data).length)
        (payloadFor defl m data) name data.length m i := by
  obtain ⟨W0, d4, halloc, hchunks, hwde, hout⟩ := pipeline_core (payloadFor defl m data) name
    data.length m d2 a (clustersFor (payloadFor defl m data).length) rfl hlo hhi hlb hfit
    i hchoose
  rcases hpre with ⟨hfind, heq⟩ | ⟨fe, hfind, hdel⟩
  · subst heq
    rw [write_file_eq defl d2 name data m hm, hfind]
    simp only []
    rw [halloc]
    simp only []
    rw [hchunks]
    simp only []
    exact ⟨d4, hwde, hout⟩
  · rw [write_file_eq defl d name data m hm, hfind]
    simp only []
    rw [hdel]
    simp only []
    rw [halloc]
    simp only []
    rw [hchunks]
    simp only []
    exact ⟨d4, hwde, hout⟩

/-! ### Deletion characterised by the chosen slot -/

theorem delete_file_at (d : Disk) (q : List Nat) (fe : FileEntry) (i : Nat)
    (hfind : find_file d q = .ok (some fe))
    (h2 : 2 ≤ fe.first_cluster) (hclt : fe.first_cluster < 1024)
    (hv : fatVal d fe.first_cluster = FAT_EOC)
    (hchoose : (List.range 32).find? (fun t =>
      slotPred (slotBytes d t) { fe with is_deleted := true }) = some i) :
    ∃ D, delete_file d q = .ok D ∧
      slotBytes D i = ({ fe with is_deleted := true }).to_bytes ∧
      (∀ t, t < 32 → t ≠ i → slotBytes D t = slotBytes d t) ∧
      (∀ j, j < 1024 → j ≠ fe.first_cluster → fatVal D j = fatVal d j) ∧
      fatVal D fe.first_cluster = 0 ∧
      (∀ c, 2 ≤ c → clusterBytes D c = clusterBytes d c) := by
  have hi32 : i < 32 := by
    have hmem := List.mem_of_find?_eq_some hchoose
    rwa [List.mem_range] at hmem
  have hfree := free_cluster_chain_single d fe.first_cluster h2 hclt hv
  have hcs : chooseSlot (readRootDir (set_next_cluster d fe.first_cluster FAT_FREE))
      { fe with is_deleted := true } = some i := by
    rw [chooseSlot_eq]
    rw [find?_slotPred_transfer (set_next_cluster d fe.first_cluster FAT_FREE) d _
      (fun t ht => slotBytes_set_next d fe.first_cluster FAT_FREE t hclt)]
    exact hchoose
  have hwde := write_directory_entry_ok (set_next_cluster d fe.first_cluster FAT_FREE)
    { fe with is_deleted := true } i hcs
  have hdel : delete_file d q = .ok (writeBytes (set_next_cluster d fe.first_cluster FAT_FREE)
      (ROOT_DIR_START_SECTOR * SECTOR_SIZE)
      ((readRootDir (set_next_cluster d fe.first_cluster FAT_FREE)).take (i * DIR_ENTRY_SIZE) ++
        ({ fe with is_deleted := true }).to_bytes ++
        (readRootDir (set_next_cluster d fe.first_cluster FAT_FREE)).drop
          (i * DIR_ENTRY_SIZE + DIR_ENTRY_SIZE))) := by
    unfold delete_file
    rw [hfind]
    simp only []
    rw [hfree]
    simp only []
    exact hwde
  refine ⟨_, hdel, ?_, ?_, ?_, ?_, ?_⟩
  · have h := slotBytes_after_write_directory_entry
      (set_next_cluster d fe.first_cluster FAT_FREE) { fe with is_deleted := true } i i hi32 hi32
    rw [h, if_pos rfl]
  · intro t ht hti
    have h := slotBytes_after_write_directory_entry
      (set_next_cluster d fe.first_cluster FAT_FREE) { fe with is_deleted := true } i t hi32 ht
    rw [h, if_neg hti]
    exact slotBytes_set_next d fe.first_cluster FAT_FREE t hclt
  · intro j hj hjne
    rw [fatVal_writeDir _ _ _ (spliced_length _ _ _ (readRootDir_length _)
      (to_bytes_length _) hi32) hj]
    exact fatVal_set_next_ne d fe.first_cluster FAT_FREE j hjne
  · rw [fatVal_writeDir _ _ _ (spliced_length _ _ _ (readRootDir_length _)
      (to_bytes_length _) hi32) hclt]
    rw [fatVal_set_next_self]
    rfl
  · intro c hc2
    rw [clusterBytes_writeDir _ _ _ (spliced_length _ _ _ (readRootDir_length _)
      (to_bytes_length _) hi32)]
    exact clusterBytes_set_next d fe.first_cluster FAT_FREE c hclt

/-! ### The truncated-chain volume of claim C4 -/

theorem slotBytes_dC4_0 : slotBytes dC4 0 = eC4.to_bytes := by
  unfold dC4 slotBytes
  rw [show ROOT_DIR_START_SECTOR * SECTOR_SIZE + 0 * DIR_ENTRY_SIZE
    = ROOT_DIR_START_SECTOR * SECTOR_SIZE from by omega]
  rw [show DIR_ENTRY_SIZE = eC4.to_bytes.length from by rw [to_bytes_length]; rfl]
  exact readBytes_writeBytes _ _ _

theorem slotBytes_dC4_rest (i : Nat) (h1 : 1 ≤ i) (hi : i < 32) :
    slotBytes dC4 i = List.replicate 64 0 := by
  unfold dC4
  rw [slotBytes_writeBytes_disj _ _ _ i (Or.inr (by
    rw [to_bytes_length]
    simp only [rootOff_eq, DIR_ENTRY_SIZE_eq]
    omega))]
  rw [slotBytes_set_next format 2 FAT_EOC i (by omega)]
  exact slotBytes_format i

theorem fatVal_dC4_2 : fatVal dC4 2 = FAT_EOC := by
  unfold dC4
  rw [fatVal_writeBytes_disj _ _ _ 2 (Or.inl (by
    simp only [fatOff_eq, rootOff_eq]
    omega))]
  exact fatVal_set_next_EOC format 2

theorem clusterBytes_dC4_2 : clusterBytes dC4 2 = List.replicate CLUSTER_SIZE 0 := by
  unfold dC4
  rw [clusterBytes_writeBytes_disj _ _ _ 2 (Or.inr (by
    rw [to_bytes_length]
    simp only [rootOff_eq, dataOff_eq, CLUSTER_SIZE_eq]
    omega))]
  rw [clusterBytes_set_next format 2 FAT_EOC 2 (by omega)]
  exact clusterBytes_format 2

theorem find_dC4 : find_file dC4 [97] = .ok (some eC4) :=
  find_file_single_entry dC4 eC4 eC4 slotBytes_dC4_0
    (fun i h1 hi => slotBytes_dC4_rest i h1 hi)
    (by decide) (by decide) rfl [97] rfl

set_option maxRecDepth 4000 in
theorem gather_dC4 : gatherFile dC4 eC4 = .ok (List.replicate 2048 0) := by
  unfold gatherFile
  rw [show eC4.compressed_size = 3000 from rfl, show eC4.first_cluster = 2 from rfl]
  rw [show (3000 : Nat) / CLUSTER_SIZE + 2 = 2 + 1 from by decide]
  rw [readChainLoop_succ]
  rw [if_pos (by decide : (2 : Nat) ≠ FAT_EOC ∧ 2 ≤ 2)]
  rw [read_cluster_eq dC4 2 (by omega) (by omega)]
  simp only []
  rw [show List.length ([] : List Nat) = 0 from rfl, Nat.sub_zero]
  rw [clusterBytes_dC4_2, CLUSTER_SIZE_eq, List.length_replicate]
  rw [show min 3000 2048 = 2048 from by norm_num]
  rw [show List.take 2048 (List.replicate 2048 (0 : Nat)) = List.replicate 2048 0 from
    List.take_of_length_le (List.length_replicate 2048 0).le]
  rw [List.nil_append]
  rw [if_neg (by rw [List.length_replicate]; omega)]
  rw [get_next_cluster_eq dC4 2 (by omega), fatVal_dC4_2]
  simp only []
  rw [show (2 : Nat) = 1 + 1 from rfl, readChainLoop_succ]
  rw [if_neg (fun h => h.1 rfl)]

theorem read_dC4 : read_file inflId dC4 [97] = .ok (List.replicate 2048 0) := by
  rw [read_file_flag_false inflId dC4 [97] eC4 find_dC4 rfl]
  exact gather_dC4

/-! ### The flag-toggled volumes of claim C5 -/

theorem slotBytes_dC5a_0 : slotBytes dC5a 0 = eC5.to_bytes := by
  unfold dC5a slotBytes
  rw [show ROOT_DIR_START_SECTOR * SECTOR_SIZE + 0 * DIR_ENTRY_SIZE
    = ROOT_DIR_START_SECTOR * SECTOR_SIZE from by omega]
  rw [show DIR_ENTRY_SIZE = eC5.to_bytes.length from by rw [to_bytes_length]; rfl]
  exact readBytes_writeBytes _ _ _

theorem slotBytes_dC5a_rest (i : Nat) (h1 : 1 ≤ i) (hi : i < 32) :
    slotBytes dC5a i = List.replicate 64 0 := by
  unfold dC5a
  rw [slotBytes_writeBytes_disj _ _ _ i (Or.inr (by
    rw [to_bytes_length]
    simp only [rootOff_eq, DIR_ENTRY_SIZE_eq]
    omega))]
  rw [slotBytes_writeBytes_disj _ _ _ i (Or.inl (by
    simp only [rootOff_eq, dataOff_eq, DIR_ENTRY_SIZE_eq]
    omega))]
  rw [slotBytes_set_next format 2 FAT_EOC i (by omega)]
  exact slotBytes_format i

theorem clusterBytes_dC5a_2 : clusterBytes dC5a 2 = [5, 120] ++ List.replicate 2046 0 := by
  unfold dC5a
  rw [clusterBytes_writeBytes_disj _ _ _ 2 (Or.inr (by
    rw [to_bytes_length]
    simp only [rootOff_eq, dataOff_eq, CLUSTER_SIZE_eq]
    omega))]
  unfold clusterBytes
  rw [show DATA_START_SECTOR * SECTOR_SIZE + (2 - 2) * CLUSTER_SIZE
    = DATA_START_SECTOR * SECTOR_SIZE from by omega]
  rw [show CLUSTER_SIZE = ([5, 120] ++ List.replicate 2046 0 : List Nat).length from by
    rw [List.length_append, List.length_replicate]; rfl]
  exact readBytes_writeBytes _ _ _

theorem find_dC5a : find_file dC5a [97] = .ok (some eC5) :=
  find_file_single_entry dC5a eC5 eC5 slotBytes_dC5a_0
    (fun i h1 hi => slotBytes_dC5a_rest i h1 hi)
    (by decide) (by decide) rfl [97] rfl

theorem read_dC5a : read_file inflId dC5a [97] = .ok (List.replicate 5 120) := by
  unfold read_file
  rw [find_dC5a]
  simp only []
  rw [gatherFile_single dC5a eC5 (by decide) (by decide) (by decide)
    (by rw [CLUSTER_SIZE_eq]; decide)]
  rw [show eC5.first_cluster = 2 from rfl]
  rw [clusterBytes_dC5a_2]
  rfl

set_option maxRecDepth 4000 in
theorem slotBytes_dC5b_0 : slotBytes dC5b 0 = eC5b.to_bytes := by
  unfold dC5b slotBytes
  rw [show ROOT_DIR_START_SECTOR * SECTOR_SIZE + 0 * DIR_ENTRY_SIZE
    = ROOT_DIR_START_SECTOR * SECTOR_SIZE from by omega]
  rw [readBytes_write_one dC5a (ROOT_DIR_START_SECTOR * SECTOR_SIZE)
    DIR_ENTRY_SIZE (ROOT_DIR_START_SECTOR * SECTOR_SIZE + 45) 0
    (by omega) (by simp only [DIR_ENTRY_SIZE_eq]; omega)]
  rw [show ROOT_DIR_START_SECTOR * SECTOR_SIZE + 45 - ROOT_DIR_START_SECTOR * SECTOR_SIZE
    = 45 from by omega]
  rw [show readBytes dC5a (ROOT_DIR_START_SECTOR * SECTOR_SIZE) DIR_ENTRY_SIZE
    = slotBytes dC5a 0 from by unfold slotBytes; rw [show ROOT_DIR_START_SECTOR * SECTOR_SIZE
      + 0 * DIR_ENTRY_SIZE = ROOT_DIR_START_SECTOR * SECTOR_SIZE from by omega]]
  rw [slotBytes_dC5a_0]
  decide

theorem slotBytes_dC5b_rest (i : Nat) (h1 : 1 ≤ i) (hi : i < 32) :
    slotBytes dC5b i = List.replicate 64 0 := by
  unfold dC5b
  rw [slotBytes_writeBytes_disj _ _ _ i (Or.inr (by
    simp only [rootOff_eq, DIR_ENTRY_SIZE_eq, List.length_cons, List.length_nil]
    omega))]
  exact slotBytes_dC5a_rest i h1 hi

theorem clusterBytes_dC5b_2 : clusterBytes dC5b 2 = [5, 120] ++ List.replicate 2046 0 := by
  unfold dC5b
  rw [clusterBytes_writeBytes_disj _ _ _ 2 (Or.inr (by
    simp only [rootOff_eq, dataOff_eq, CLUSTER_SIZE_eq, List.length_cons, List.length_nil]
    omega))]
  exact clusterBytes_dC5a_2

theorem find_dC5b : find_file dC5b [97] = .ok (some eC5b) :=
  find_file_single_entry dC5b eC5b eC5b slotBytes_dC5b_0
    (fun i h1 hi => slotBytes_dC5b_rest i h1 hi)
    (by decide) (by decide) rfl [97] rfl

theorem read_dC5b : read_file inflId dC5b [97] = .ok [5, 120] := by
  rw [read_file_flag_false inflId dC5b [97] eC5b find_dC5b rfl]
  rw [gatherFile_single dC5b eC5b (by decide) (by decide) (by decide)
    (by rw [CLUSTER_SIZE_eq]; decide)]
  rw [show eC5b.first_cluster = 2 from rfl]
  rw [clusterBytes_dC5b_2]
  rfl

/-! ### Writing an empty filename: the slot becomes invisible -/

theorem write_empty_name_hidden (data : List Nat)
    (hfit : 2 + clustersFor data.length ≤ 1024) :
    ∃ W, write_file deflId format [] data (some 0) = .ok W ∧
      slotBytes W 0 =
        (FileEntry.new [] (data.length % 2 ^ 32) (data.length % 2 ^ 32) 2 0).to_bytes ∧
      dirByte W 0 = 0 ∧
      (∀ i, 1 ≤ i → i < 32 → slotBytes W i = List.replicate 64 0) ∧
      (∀ j, 2 ≤ j → j < 2 + clustersFor data.length → fatVal W j ≠ 0) ∧
      (∀ j, 2 + clustersFor data.length ≤ j → j < 1024 → fatVal W j = 0) ∧
      find_file W [] = .ok none := by
  obtain ⟨W, hw, ho⟩ := write_file_ok deflId format 2 WState_format [] data 0 (Or.inl rfl)
    (by exact hfit)
  rw [show payloadFor deflId 0 data = data from rfl] at ho
  have hkpos := clustersFor_pos data.length
  have hs0 : slotBytes W 0 =
      (FileEntry.new [] (data.length % 2 ^ 32) (data.length % 2 ^ 32) 2 0).to_bytes := ho.slot0
  have hrest : ∀ i, 1 ≤ i → i < 32 → slotBytes W i = List.replicate 64 0 := by
    intro i h1 hi
    rw [ho.slot_rest i h1 hi]
    exact slotBytes_format i
  have hd0 : dirByte W 0 = 0 := by
    have h := slotBytes_getD_zero W 0
    rw [show (0 : Nat) * DIR_ENTRY_SIZE = 0 from rfl] at h
    rw [← h, hs0, to_bytes_getD_0]
    rfl
  refine ⟨W, hw, hs0, hd0, hrest, ?_, ?_, find_file_none_of_rest_zero W [] hd0 hrest⟩
  · intro j h2 hj
    rcases Nat.lt_or_ge (j - 2 + 1) (clustersFor data.length) with hlt | hge
    · have h := ho.fat_chain (j - 2) hlt
      rw [show 2 + (j - 2) = j from by omega] at h
      rw [h]
      omega
    · have hj_eq : j = 2 + (clustersFor data.length - 1) := by omega
      rw [hj_eq, ho.fat_last, FAT_EOC_eq]
      omega
  · intro j hjk hj
    rw [ho.fat_hi j hjk hj]
    exact fatVal_format_free j (by omega)

theorem hidden_after_write_empty (data : List Nat)
    (hfit : 2 + clustersFor data.length ≤ 1024) :
    ∃ W, write_file deflId format [] data (some 0) = .ok W ∧
      fatVal W 2 ≠ 0 ∧
      list_files W = .ok [] ∧
      read_file inflId W [] = .error .notFound ∧
      delete_file W [] = .error .notFound ∧
      get_compression_stats W [] = .error .notFound := by
  obtain ⟨W, hw, hs0, hd0, hrest, hbusy, hfree, hfind⟩ := write_empty_name_hidden data hfit
  refine ⟨W, hw, hbusy 2 (le_refl 2) (by have := clustersFor_pos data.length; omega), ?_,
    read_file_notFound inflId W [] hfind, delete_file_notFound W [] hfind,
    stats_notFound W [] hfind⟩
  rw [list_files_eq, slotsList_of_rest_zero W hrest]
  rw [entriesOfSlots_skip_head _ _ (by
    rw [slotBytes_getD_zero]
    rw [show (0 : Nat) * DIR_ENTRY_SIZE = 0 from rfl]
    exact hd0)]
  rw [entriesOfSlots_replicate_zero]

/-! ### The delete-misplacement trace: write "a", write "b", delete "a" -/

theorem traceW3 : ∃ W1 W2 W3,
    write_file deflId format [97] [1] (some 0) = .ok W1 ∧
    write_file deflId W1 [98] [2] (some 0) = .ok W2 ∧
    delete_file W2 [97] = .ok W3 ∧
    slotBytes W3 0 = t97.to_bytes ∧
    slotBytes W3 1 = e98.to_bytes ∧
    (∀ i, 2 ≤ i → i < 32 → slotBytes W3 i = List.replicate 64 0) ∧
    fatVal W3 2 = 0 ∧
    fatVal W3 3 = FAT_EOC ∧
    (∀ j, 4 ≤ j → j < 1024 → fatVal W3 j = 0) ∧
    clusterBytes W3 3 = clusterOfChunk [2] 0 := by
  obtain ⟨W1, hw1, ho1⟩ := write_file_ok deflId format 2 WState_format [97] [1] 0 (Or.inl rfl)
    (by decide)
  rw [show payloadFor deflId 0 [1] = [1] from rfl,
    show ([1] : List Nat).length = 1 from rfl,
    show clustersFor 1 = 1 from by decide] at ho1
  have hW1s0 : slotBytes W1 0 = e97.to_bytes := ho1.slot0
  have hW1rest : ∀ i, 1 ≤ i → i < 32 → slotBytes W1 i = List.replicate 64 0 := by
    intro i h1 hi
    rw [ho1.slot_rest i h1 hi]
    exact slotBytes_format i
  have hW1fat2 : fatVal W1 2 = FAT_EOC := by
    have h := ho1.fat_last
    rwa [show 2 + (1 - 1) = 2 from rfl] at h
  have hW1fathi : ∀ j, 3 ≤ j → j < 1024 → fatVal W1 j = 0 := by
    intro j h3 hj
    rw [ho1.fat_hi j (by omega) hj]
    exact fatVal_format_free j (by omega)
  have hfindW1_98 : find_file W1 [98] = .ok none := by
    rw [find_file_one W1 hW1rest [98], hW1s0]
    rfl
  have hchoose2 : (List.range 32).find? (fun t => slotPred (slotBytes W1 t)
      (FileEntry.new [98] (([2] : List Nat).length % 2 ^ 32)
        ((payloadFor deflId 0 [2]).length % 2 ^ 32) 3 0)) = some 1 := by
    apply find?_slot1
    · rw [hW1s0]
      decide
    · rw [hW1rest 1 (by omega) (by omega)]
      exact slotPred_zero _
  obtain ⟨W2, hw2, ho2⟩ := write_file_pipeline deflId W1 W1 3 [98] [2] 0 (Or.inl rfl)
    (Or.inl ⟨hfindW1_98, rfl⟩)
    (fun j h2 hj => by
      have hj2 : j = 2 := by omega
      rw [hj2, hW1fat2, FAT_EOC_eq]
      omega)
    (fun j h3 hj => hW1fathi j h3 hj)
    (by omega)
    (by decide)
    1 hchoose2
  rw [show payloadFor deflId 0 [2] = [2] from rfl,
    show ([2] : List Nat).length = 1 from rfl,
    show clustersFor 1 = 1 from by decide] at ho2
  have hW2s0 : slotBytes W2 0 = e97.to_bytes := by
    rw [ho2.slot_rest 0 (by omega) (by omega)]
    exact hW1s0
  have hW2s1 : slotBytes W2 1 = e98.to_bytes := ho2.slot_new
  have hW2rest : ∀ i, 2 ≤ i → i < 32 → slotBytes W2 i = List.replicate 64 0 := by
    intro i h2 hi
    rw [ho2.slot_rest i hi (by omega)]
    exact hW1rest i (by omega) hi
  have hW2fat2 : fatVal W2 2 = FAT_EOC := by
    rw [ho2.fat_lo 2 (by omega)]
    exact hW1fat2
  have hW2fat3 : fatVal W2 3 = FAT_EOC := by
    have h := ho2.fat_last
    rwa [show 3 + (1 - 1) = 3 from rfl] at h
  have hW2fathi : ∀ j, 4 ≤ j → j < 1024 → fatVal W2 j = 0 := by
    intro j h4 hj
    rw [ho2.fat_hi j (by omega) hj]
    exact hW1fathi j (by omega) hj
  have hW2clus3 : clusterBytes W2 3 = clusterOfChunk [2] 0 := by
    have h := ho2.clus (by decide) 0 (by omega)
    rwa [Nat.add_zero] at h
  have hfindW2_97 : find_file W2 [97] = .ok (some e97) := by
    rw [find_file_two W2 hW2rest [97], hW2s0, hW2s1]
    rfl
  have hchoose3 : (List.range 32).find? (fun t =>
      slotPred (slotBytes W2 t) { e97 with is_deleted := true }) = some 0 := by
    apply find?_slot0
    rw [hW2s0]
    decide
  obtain ⟨W3, hdel3, hW3s0, hW3rest0, hW3fat, hW3fat2, hW3clus⟩ :=
    delete_file_at W2 [97] e97 0 hfindW2_97 (by decide) (by decide) hW2fat2 hchoose3
  refine ⟨W1, W2, W3, hw1, hw2, hdel3, hW3s0, ?_, ?_, hW3fat2, ?_, ?_, ?_⟩
  · rw [hW3rest0 1 (by omega) (by omega)]
    exact hW2s1
  · intro i h2 hi
    rw [hW3rest0 i hi (by omega)]
    exact hW2rest i h2 hi
  · rw [hW3fat 3 (by omega) (by decide)]
    exact hW2fat3
  · intro j h4 hj
    rw [hW3fat j hj (show j ≠ 2 by omega)]
    exact hW2fathi j h4 hj
  · rw [hW3clus 3 (by omega)]
    exact hW2clus3

/-! ### Extending the trace: the second delete lands in the wrong slot -/

theorem traceW4 : ∃ W1 W2 W3 W4,
    write_file deflId format [97] [1] (some 0) = .ok W1 ∧
    write_file deflId W1 [98] [2] (some 0) = .ok W2 ∧
    delete_file W2 [97] = .ok W3 ∧
    delete_file W3 [98] = .ok W4 ∧
    slotBytes W4 0 = t98.to_bytes ∧
    slotBytes W4 1 = e98.to_bytes ∧
    (∀ i, 2 ≤ i → i < 32 → slotBytes W4 i = List.replicate 64 0) ∧
    (∀ j, 2 ≤ j → j < 1024 → fatVal W4 j = 0) ∧
    clusterBytes W4 3 = clusterOfChunk [2] 0 ∧
    find_file W3 [98] = .ok (some e98) ∧
    read_file inflId W4 [98] = .ok [2] := by
  obtain ⟨W1, W2, W3, hw1, hw2, hdel1, hs0, hs1, hrest, hfat2, hfat3, hfathi, hclus3⟩ := traceW3
  have hfindW3_98 : find_file W3 [98] = .ok (some e98) := by
    rw [find_file_two W3 hrest [98], hs0, hs1]
    rfl
  have hchoose4 : (List.range 32).find? (fun t =>
      slotPred (slotBytes W3 t) { e98 with is_deleted := true }) = some 0 := by
    apply find?_slot0
    rw [hs0]
    decide
  obtain ⟨W4, hdel4, hW4s0, hW4rest0, hW4fat, hW4fat3, hW4clus⟩ :=
    delete_file_at W3 [98] e98 0 hfindW3_98 (by decide) (by decide) hfat3 hchoose4
  have hW4s1 : slotBytes W4 1 = e98.to_bytes := by
    rw [hW4rest0 1 (by omega) (by omega)]
    exact hs1
  have hW4rest : ∀ i, 2 ≤ i → i < 32 → slotBytes W4 i = List.replicate 64 0 := by
    intro i h2 hi
    rw [hW4rest0 i hi (by omega)]
    exact hrest i h2 hi
  have hW4fatall : ∀ j, 2 ≤ j → j < 1024 → fatVal W4 j = 0 := by
    intro j h2 hj
    rcases Nat.lt_trichotomy j 3 with hlt | heq | hgt
    · have hj2 : j = 2 := by omega
      rw [hj2, hW4fat 2 (by omega) (by decide)]
      exact hfat2
    · rw [heq]
      exact hW4fat3
    · rw [hW4fat j hj (show j ≠ 3 by omega)]
      exact hfathi j (by omega) hj
  have hW4clus3 : clusterBytes W4 3 = clusterOfChunk [2] 0 := by
    rw [hW4clus 3 (by omega)]
    exact hclus3
  have hfindW4_98 : find_file W4 [98] = .ok (some e98) := by
    rw [find_file_two W4 hW4rest [98], hW4s0, hW4s1]
    rfl
  have hread : read_file inflId W4 [98] = .ok [2] := by
    rw [read_file_flag_false inflId W4 [98] e98 hfindW4_98 rfl]
    rw [gatherFile_single W4 e98 (by decide) (by decide) (by decide) (by decide)]
    rw [show e98.first_cluster = 3 from rfl]
    rw [hW4clus3]
    rfl
  exact ⟨W1, W2, W3, W4, hw1, hw2, hdel1, hdel4, hW4s0, hW4s1, hW4rest, hW4fatall,
    hW4clus3, hfindW3_98, hread⟩

/-! ### Compression statistics -/

theorem stats_after_write_m0 (name data : List Nat)
    (hnlen : name.length ≤ 32) (hnnz : ∀ b ∈ name, b ≠ 0) (hnne : name ≠ [])
    (hosz : data.length < 2 ^ 32) (hpos : 0 < data.length)
    (hfit : 2 + clustersFor data.length ≤ 1024) :
    ∃ W, write_file deflId format name data (some 0) = .ok W ∧
      get_compression_stats W name = .ok (data.length, data.length, 100, "无压缩") := by
  obtain ⟨W, hw, ho⟩ := write_file_ok deflId format 2 WState_format name data 0 (Or.inl rfl)
    (by exact hfit)
  rw [show payloadFor deflId 0 data = data from rfl] at ho
  have hdec := from_bytes_new name data.length data.length 2 0 hnlen hnnz (by omega) (by omega)
  have hb0 : (FileEntry.new name (data.length % 2 ^ 32)
      (data.length % 2 ^ 32) 2 0).to_bytes.getD 0 0 ≠ 0 := by
    rw [to_bytes_getD_0]
    cases name with
    | nil => exact absurd rfl hnne
    | cons b rest =>
      simp only [FileEntry.new, List.headD]
      exact hnnz b (List.mem_cons_self b rest)
  have hfind := find_file_single_entry W _ _ ho.slot0
    (fun i h1 hi => by rw [ho.slot_rest i h1 hi]; exact slotBytes_format i)
    hdec hb0 rfl name rfl
  refine ⟨W, hw, ?_⟩
  unfold get_compression_stats
  rw [hfind]
  simp only [Nat.mod_eq_of_lt hosz]
  rw [if_pos hpos]
  rw [div_self (show ((data.length : ℚ)) ≠ 0 from Nat.cast_ne_zero.mpr (by omega)), one_mul]

theorem stats_label_cases (d : Disk) (q : List Nat) (n c : Nat) (r : ℚ) (L : String)
    (h : get_compression_stats d q = .ok (n, c, r, L)) :
    L = "无压缩" ∨ L = "RLE压缩" ∨ L = "DEFLATE压缩" ∨ L = "未知压缩方法" := by
  unfold get_compression_stats at h
  rw [find_file_eq] at h
  cases hfo : (entriesOfSlots (slotsList d)).find? (fun e => e.name == q && !e.is_deleted) with
  | none =>
    rw [hfo] at h
    exact absurd h (by simp)
  | some fe =>
    rw [hfo] at h
    simp only [Except.ok.injEq, Prod.mk.injEq] at h
    obtain ⟨-, -, -, h4⟩ := h
    rcases hcm : fe.compression_method with _ | _ | _ | k
    all_goals rw [hcm] at h4
    · exact Or.inl h4.symm
    · exact Or.inr (Or.inl h4.symm)
    · exact Or.inr (Or.inr (Or.inl h4.symm))
    · exact Or.inr (Or.inr (Or.inr h4.symm))

/-! ### The claims -/

/-- C1: on a freshly formatted volume, for a name of 1..32 nonzero bytes and
any payload that fits the data area (and, for the abstract DEFLATE, a
round-tripping decompressor), `write_file` succeeds and a subsequent
`read_file` returns exactly the written bytes, for every method in
{0, 1, 2}.  (The original claim, over every name of at most 32 bytes, fails
for the empty name: see the counterexample.) -/
theorem c1_roundtrip_after_write (defl : List Nat → List Nat)
    (infl : List Nat → Option (List Nat)) (name data : List Nat) (m : Nat)
    (hm : m = 0 ∨ m = 1 ∨ m = 2)
    (hnne : name ≠ []) (hnlen : name.length ≤ 32) (hnnz : ∀ b ∈ name, b ≠ 0)
    (hosz : data.length < 2 ^ 32)
    (hfit : clustersFor (payloadFor defl m data).length ≤ 1022)
    (hinfl : infl (defl data) = some data) :
    ∃ W, write_file defl format name data (some m) = .ok W ∧
      read_file infl W name = .ok data := by
  obtain ⟨W, hw, ho⟩ := write_file_ok defl format 2 WState_format name data m hm (by omega)
  exact ⟨W, hw, read_file_after_write infl defl format W 2 m name data ho
    (fun i h1 hi => slotBytes_format i) (by omega) (by omega) hnlen hnnz hnne hosz hm hinfl⟩

theorem c1_roundtrip_witness :
    ∃ W, write_file deflId format [97] [1, 2, 3] (some 0) = .ok W ∧
      read_file inflId W [97] = .ok [1, 2, 3] :=
  c1_roundtrip_after_write deflId inflId [97] [1, 2, 3] 0 (Or.inl rfl) (by decide)
    (by decide) (by decide) (by decide) (by decide) rfl

theorem c1_empty_name_counterexample :
    ∃ W, write_file deflId format [] [1] (some 0) = .ok W ∧
      read_file inflId W [] = .error .notFound := by
  obtain ⟨W, hw, -, -, hread, -, -⟩ := hidden_after_write_empty [1] (by decide)
  exact ⟨W, hw, hread⟩

/-- C2: the trace write "a", write "b", delete "a", delete "b" leaves the
live entry for "b" in slot 1 untouched: the second delete writes the
tombstoned entry into slot 0 (the first qualifying slot, which holds the
tombstone of "a"), so a subsequent read of "b" still succeeds instead of
returning not-found.  This refutes `write; delete; read = not-found` and
shows the tombstone is not written to the slot holding the live entry. -/
theorem c2_delete_tombstone_misplaced : ∃ W1 W2 W3 W4,
    write_file deflId format [97] [1] (some 0) = .ok W1 ∧
    write_file deflId W1 [98] [2] (some 0) = .ok W2 ∧
    delete_file W2 [97] = .ok W3 ∧
    delete_file W3 [98] = .ok W4 ∧
    slotBytes W4 0 = t98.to_bytes ∧
    slotBytes W4 1 = e98.to_bytes ∧
    t98.is_deleted = true ∧ e98.is_deleted = false ∧ e98.name = [98] ∧
    read_file inflId W4 [98] = .ok [2] := by
  obtain ⟨W1, W2, W3, W4, hw1, hw2, hd1, hd2, hs0, hs1, -, -, -, -, hread⟩ := traceW4
  exact ⟨W1, W2, W3, W4, hw1, hw2, hd1, hd2, hs0, hs1, rfl, rfl, rfl, hread⟩

/-- C3: the trace write "a", write "b", delete "a", write "b" again ends
with two live directory entries both named "b" (in slots 0 and 1, with
different first clusters): rewriting an existing name does not remove the
prior entry, because the delete step tombstones the wrong slot. -/
theorem c3_duplicate_live_entries : ∃ W1 W2 W3 W5,
    write_file deflId format [97] [1] (some 0) = .ok W1 ∧
    write_file deflId W1 [98] [2] (some 0) = .ok W2 ∧
    delete_file W2 [97] = .ok W3 ∧
    write_file deflId W3 [98] [3] (some 0) = .ok W5 ∧
    list_files W5 = .ok [e98b, e98] ∧
    e98b.name = e98.name ∧
    e98b.is_deleted = false ∧ e98.is_deleted = false ∧
    e98b.first_cluster ≠ e98.first_cluster := by
  obtain ⟨W1, W2, W3, W4, hw1, hw2, hd1, hd2, hW4s0, hW4s1, hW4rest, hW4fat, hW4clus3,
    hfindW3, hread⟩ := traceW4
  have hchoose5 : (List.range 32).find? (fun t => slotPred (slotBytes W4 t)
      (FileEntry.new [98] (([3] : List Nat).length % 2 ^ 32)
        ((payloadFor deflId 0 [3]).length % 2 ^ 32) 2 0)) = some 0 := by
    apply find?_slot0
    rw [hW4s0]
    decide
  obtain ⟨W5, hw5, ho5⟩ := write_file_pipeline deflId W3 W4 2 [98] [3] 0 (Or.inl rfl)
    (Or.inr ⟨e98, hfindW3, hd2⟩)
    (fun j h2 hj => absurd (Nat.lt_of_le_of_lt h2 hj) (Nat.lt_irrefl 2))
    (fun j h2 hj => hW4fat j h2 hj)
    (Nat.le_refl 2) (by decide) 0 hchoose5
  rw [show payloadFor deflId 0 [3] = [3] from rfl,
    show ([3] : List Nat).length = 1 from rfl,
    show clustersFor 1 = 1 from by decide] at ho5
  have hW5s0 : slotBytes W5 0 = e98b.to_bytes := ho5.slot_new
  have hW5s1 : slotBytes W5 1 = e98.to_bytes := by
    rw [ho5.slot_rest 1 (by omega) (by omega)]
    exact hW4s1
  have hW5rest : ∀ i, 2 ≤ i → i < 32 → slotBytes W5 i = List.replicate 64 0 := by
    intro i h2 hi
    rw [ho5.slot_rest i hi (by omega)]
    exact hW4rest i h2 hi
  refine ⟨W1, W2, W3, W5, hw1, hw2, hd1, hw5, ?_, rfl, rfl, rfl, by decide⟩
  rw [list_files_two W5 hW5rest, hW5s0, hW5s1]
  rfl

/-- C4: a live method-0 entry with stored size 3000 whose chain holds a
single cluster (ending in EOC) is read back as the 2048 gathered bytes with
no error: the early chain termination is not detected, so read does not
return a corruption error.  (The original claim said it must.) -/
theorem c4_truncated_chain_reads_ok :
    eC4.compressed_size = 3000 ∧ CLUSTER_SIZE = 2048 ∧
    read_file inflId dC4 [97] = .ok (List.replicate 2048 0) :=
  ⟨rfl, rfl, read_dC4⟩

theorem c4_counterexample :
    read_file inflId dC4 [97] = .ok (List.replicate 2048 0) ∧
    (Except.ok (List.replicate 2048 0) : Except Err (List Nat)) ≠ .error .invalidData :=
  ⟨read_dC4, fun h => Except.noConfusion h⟩

/-- C5: when a found entry's `is_compressed` flag is clear, `read_file`
returns the raw gathered bytes whatever `compression_method` says — the
result is decided by the flag, not by the method.  (The original claim
said the method alone decides.) -/
theorem c5_flag_controls_decompression (infl : List Nat → Option (List Nat)) (d : Disk)
    (q : List Nat) (fe : FileEntry) (hfind : find_file d q = .ok (some fe))
    (hic : fe.is_compressed = false) :
    read_file infl d q = gatherFile d fe :=
  read_file_flag_false infl d q fe hfind hic

theorem c5_flag_witness : find_file dC5b [97] = .ok (some eC5b) ∧
    eC5b.is_compressed = false ∧
    read_file inflId dC5b [97] = gatherFile dC5b eC5b :=
  ⟨find_dC5b, rfl, c5_flag_controls_decompression inflId dC5b [97] eC5b find_dC5b rfl⟩

theorem c5_counterexample :
    dC5b = writeBytes dC5a (ROOT_DIR_START_SECTOR * SECTOR_SIZE + 45) [0] ∧
    read_file inflId dC5a [97] = .ok (List.replicate 5 120) ∧
    read_file inflId dC5b [97] = .ok [5, 120] ∧
    (List.replicate 5 120 : List Nat) ≠ [5, 120] :=
  ⟨rfl, read_dC5a, read_dC5b, by decide⟩

set_option maxRecDepth 100000 in
/-- C6: writing 3000 copies of the byte 'x' (120) with method 1 on a fresh
volume stores an RLE stream of 24 bytes (eleven (255, 'x') pairs and one
(195, 'x') pair), not 26 as claimed, and reading the file back returns the
3000 bytes. -/
theorem c6_rle_stored_size :
    (rle_compress_data (List.replicate 3000 120)).length = 24 ∧
    ∃ W, write_file deflId format [99] (List.replicate 3000 120) (some 1) = .ok W ∧
      slotBytes W 0 = (FileEntry.new [99] (3000 % 2 ^ 32) (24 % 2 ^ 32) 2 1).to_bytes ∧
      read_file inflId W [99] = .ok (List.replicate 3000 120) := by
  have hplen : (payloadFor deflId 1 (List.replicate 3000 120)).length = 24 := by decide
  refine ⟨hplen, ?_⟩
  obtain ⟨W, hw, ho⟩ := write_file_ok deflId format 2 WState_format [99]
    (List.replicate 3000 120) 1 (Or.inr (Or.inl rfl)) (by rw [hplen]; decide)
  have hs := ho.slot0
  rw [hplen, List.length_replicate] at hs
  refine ⟨W, hw, hs, ?_⟩
  exact read_file_after_write inflId deflId format W 2 1 [99] (List.replicate 3000 120) ho
    (fun i h1 hi => slotBytes_format i) (by omega)
    (by rw [hplen]; decide)
    (by decide) (by decide) (by decide)
    (by rw [List.length_replicate]; decide)
    (Or.inr (Or.inl rfl)) rfl

set_option maxRecDepth 100000 in
theorem c6_counterexample : (rle_compress_data (List.replicate 3000 120)).length ≠ 26 := by
  decide

/-- C7: after a method-0 write of n > 0 bytes on a fresh volume, stats
returns (n, n, 100, label) where the label is the Chinese string "无压缩",
and in general the label is one of the four Chinese strings of the source —
never "none", "rle" or "deflate" as the original claim stated. -/
theorem c7_stats_method0 (name data : List Nat)
    (hnlen : name.length ≤ 32) (hnnz : ∀ b ∈ name, b ≠ 0) (hnne : name ≠ [])
    (hosz : data.length < 2 ^ 32) (hpos : 0 < data.length)
    (hfit : 2 + clustersFor data.length ≤ 1024) :
    (∃ W, write_file deflId format name data (some 0) = .ok W ∧
      get_compression_stats W name = .ok (data.length, data.length, 100, "无压缩")) ∧
    (∀ d q n c r L, get_compression_stats d q = .ok (n, c, r, L) →
      L = "无压缩" ∨ L = "RLE压缩" ∨ L = "DEFLATE压缩" ∨ L = "未知压缩方法") :=
  ⟨stats_after_write_m0 name data hnlen hnnz hnne hosz hpos hfit,
    fun d q n c r L h => stats_label_cases d q n c r L h⟩

theorem c7_stats_witness :
    ∃ W, write_file deflId format [97] [104, 101, 108, 108, 111] (some 0) = .ok W ∧
      get_compression_stats W [97]
        = .ok (([104, 101, 108, 108, 111] : List Nat).length,
            ([104, 101, 108, 108, 111] : List Nat).length, 100, "无压缩") :=
  (c7_stats_method0 [97] [104, 101, 108, 108, 111] (by decide) (by decide) (by decide)
    (by decide) (by decide) (by decide)).1

theorem c7_counterexample :
    (∃ W, write_file deflId format [97] [104, 101, 108, 108, 111] (some 0) = .ok W ∧
      ∃ r : ℚ, get_compression_stats W [97] = .ok (5, 5, r, "无压缩")) ∧
    "无压缩" ≠ "none" := by
  refine ⟨?_, by decide⟩
  obtain ⟨W, hw, hs⟩ := stats_after_write_m0 [97] [104, 101, 108, 108, 111]
    (by decide) (by decide) (by decide) (by decide) (by decide) (by decide)
  exact ⟨W, hw, 100, hs⟩

/-- C8: for every FAT state, the allocator returns the smallest cluster
index in 2..1023 whose FAT slot is 0, with that slot set to end-of-chain in
the returned state, and returns the no-space error exactly when no slot in
that range is 0. -/
theorem c8_allocate_first_free (d : Disk) :
    (∀ c0, 2 ≤ c0 → c0 < 1024 → fatVal d c0 = 0 →
      (∀ j, 2 ≤ j → j < c0 → fatVal d j ≠ 0) →
      allocate_cluster d = .ok (c0, set_next_cluster d c0 FAT_EOC)) ∧
    ((∀ j, 2 ≤ j → j < 1024 → fatVal d j ≠ 0) →
      allocate_cluster d = .error .noSpace) :=
  ⟨fun c0 h2 hlt hfree hbusy => allocate_cluster_found d c0 h2 hlt hfree hbusy,
    fun h => allocate_cluster_none d h⟩

theorem c8_allocate_witness :
    allocate_cluster format = .ok (2, set_next_cluster format 2 FAT_EOC) :=
  (c8_allocate_first_free format).1 2 (Nat.le_refl 2) (by omega)
    (fatVal_format_free 2 (Nat.le_refl 2))
    (fun j h2 hj => absurd (Nat.lt_of_le_of_lt h2 hj) (Nat.lt_irrefl 2))

/-- C9: the chain-freeing walk terminates on every disk and start cluster:
at fuel `FREE_FUEL` the fuelled loop always yields a result, and
`free_cluster_chain` never reports fuel exhaustion. -/
theorem c9_free_chain_terminates (d : Disk) (start : Nat) :
    (freeChainLoop FREE_FUEL d start).isSome = true ∧
    free_cluster_chain d start ≠ .error .fuelOut := by
  refine ⟨freeChainLoop_isSome d start, ?_⟩
  unfold free_cluster_chain
  by_cases hs : start < 2
  · rw [if_pos hs]
    intro h
    exact Except.noConfusion h
  · rw [if_neg hs]
    cases hfl : freeChainLoop FREE_FUEL d start with
    | none =>
      have hsome := freeChainLoop_isSome d start
      rw [hfl] at hsome
      exact absurd hsome (by simp)
    | some r =>
      simp only []
      intro h
      rw [h] at hfl
      exact freeChainLoop_no_fuelOut FREE_FUEL d start hfl

/-- C10: writing the empty filename succeeds and lays out a cluster chain,
but the written slot starts with byte 0, so every scan treats it as
never-used: list_files omits it, read/delete/stats return not-found, and
the next write reclaims the slot (its entry points past the leaked chain,
whose first FAT slot stays allocated). -/
theorem c10_empty_name_invisible (data data2 : List Nat)
    (hosz2 : data2.length < 2 ^ 32)
    (hfit : 2 + clustersFor data.length + clustersFor data2.length ≤ 1024) :
    ∃ W, write_file deflId format [] data (some 0) = .ok W ∧
      dirByte W 0 = 0 ∧
      fatVal W 2 ≠ 0 ∧
      list_files W = .ok [] ∧
      read_file inflId W [] = .error .notFound ∧
      delete_file W [] = .error .notFound ∧
      get_compression_stats W [] = .error .notFound ∧
      ∃ W2, write_file deflId W [97] data2 (some 0) = .ok W2 ∧
        slotBytes W2 0 = (FileEntry.new [97] (data2.length % 2 ^ 32) (data2.length % 2 ^ 32)
          (2 + clustersFor data.length) 0).to_bytes ∧
        fatVal W2 2 ≠ 0 := by
  have hkpos := clustersFor_pos data.length
  have hk2pos := clustersFor_pos data2.length
  obtain ⟨W, hw, hs0, hd0, hrest, hbusy, hfree, hfind⟩ := write_empty_name_hidden data (by omega)
  have hfat2ne : fatVal W 2 ≠ 0 := hbusy 2 (Nat.le_refl 2) (by omega)
  have hlist : list_files W = .ok [] := by
    rw [list_files_eq, slotsList_of_rest_zero W hrest]
    rw [entriesOfSlots_skip_head _ _ (by
      rw [slotBytes_getD_zero]
      rw [show (0 : Nat) * DIR_ENTRY_SIZE = 0 from rfl]
      exact hd0)]
    rw [entriesOfSlots_replicate_zero]
  have hWS : WState W (2 + clustersFor data.length) :=
    ⟨fun j h2 hj => hbusy j h2 hj, fun j hjk hj => hfree j hjk hj, hd0, hrest,
      by omega, by omega⟩
  obtain ⟨W2, hw2, ho2⟩ := write_file_ok deflId W (2 + clustersFor data.length) hWS [97] data2 0
    (Or.inl rfl) (by rw [show payloadFor deflId 0 data2 = data2 from rfl]; omega)
  rw [show payloadFor deflId 0 data2 = data2 from rfl] at ho2
  refine ⟨W, hw, hd0, hfat2ne, hlist,
    read_file_notFound inflId W [] hfind, delete_file_notFound W [] hfind,
    stats_notFound W [] hfind, W2, hw2, ho2.slot0, ?_⟩
  rw [ho2.fat_lo 2 (by omega)]
  exact hfat2ne

theorem c10_witness :
    ∃ W, write_file deflId format [] [1] (some 0) = .ok W ∧
      dirByte W 0 = 0 ∧
      fatVal W 2 ≠ 0 ∧
      list_files W = .ok [] ∧
      read_file inflId W [] = .error .notFound ∧
      delete_file W [] = .error .notFound ∧
      get_compression_stats W [] = .error .notFound ∧
      ∃ W2, write_file deflId W [97] [2] (some 0) = .ok W2 ∧
        slotBytes W2 0 = (FileEntry.new [97] (([2] : List Nat).length % 2 ^ 32)
          (([2] : List Nat).length % 2 ^ 32)
          (2 + clustersFor ([1] : List Nat).length) 0).to_bytes ∧
        fatVal W2 2 ≠ 0 :=
  c10_empty_name_invisible [1] [2] (by decide) (by decide)
